import Mathlib

/-!
Shallow embedding of the CHIP-8 interpreter core from `src/CHIP-8/main.cpp`.

Machine integers are modelled as `Nat` with explicit `% 2^w` at every point
where the C++ code relies on fixed-width wraparound (`uint8_t` registers,
`uint16_t` program counter / index register / stack slots, `uint32_t`
instruction counter).  Bit masks of the form `x & (2^k - 1)` are written
`x % 2^k`, and a right shift by `k` is written `/ 2^k`.

Arrays (`memory[4096]`, `display[64*32]`, `stack[12]`, `V[16]`,
`keypad[16]`) are modelled as lists.  An access the C++ code performs
without a bounds check is modelled totally: where the C++ program would
index out of the array (undefined behavior), the embedded step returns a
`Fault` describing the out-of-range access, so every out-of-range branch
is explicit and observable.
-/

namespace Chip8Emu

/-- Emulator state enum (`EmulatorState` in the source). -/
inductive EmulatorState where
  | QUIT
  | RUNNING
  | PAUSE
deriving DecidableEq

/-- Decoded instruction record (`struct instructions` in the source).
The C++ bitfields are modelled by storing the already-masked values. -/
structure Instructions where
  opcode : Nat
  NNN : Nat
  NN : Nat
  N : Nat
  X : Nat
  Y : Nat
deriving DecidableEq

/-- Emulator configuration (`struct Config` in the source). -/
structure Config where
  window_width : Nat
  window_height : Nat
  fg_color : Nat
  bg_color : Nat
  scale_factor : Nat
  clock_rate : Nat
deriving DecidableEq

/-- The configuration hard-coded in `set_config_from_args`. -/
def set_config_from_args : Config :=
  { window_width := 64
    window_height := 32
    fg_color := 0xFFFFFFFF
    bg_color := 0x000000FF
    scale_factor := 35
    clock_rate := 700 }

/-- Faults marking accesses that are out-of-bounds (undefined behavior)
in the C++ source: they have no error handling there, so the total
embedding surfaces them explicitly. -/
inductive Fault where
  | oobMemRead (idx : Nat)
  | oobMemWrite (idx : Nat)
  | oobStackWrite
  | oobStackRead
deriving DecidableEq

/-- The CHIP-8 machine record (`struct Chip8` in the source).  The raw
stack pointer is modelled as the index `sp` into `stack`. -/
structure Chip8 where
  state : EmulatorState
  memory : List Nat
  display : List Bool
  stack : List Nat
  sp : Nat
  V : List Nat
  I : Nat
  pc : Nat
  delay_timer : Nat
  sound_timer : Nat
  keypad : List Bool
  rom : String
  inst : Instructions
  debug_mode : Bool
  instructions_executed : Nat
  last_opcode : Nat
  sprite_drawn_this_frame : Bool
  last_sprite_x : Nat
  last_sprite_y : Nat
  last_sprite_height : Nat
  last_sprite_address : Nat
  collision_detected : Bool
deriving DecidableEq

/-- Read one byte of machine memory; the C++ code indexes the
`memory[4096]` array without a bounds check, so an out-of-range index
is a fault. -/
def memRead (m : List Nat) (i : Nat) : Except Fault Nat :=
  match m[i]? with
  | some b => .ok b
  | none => .error (.oobMemRead i)

/-- Write one byte of machine memory; out-of-range indices fault. -/
def memWrite (m : List Nat) (i v : Nat) : Except Fault (List Nat) :=
  if i < m.length then .ok (m.set i v) else .error (.oobMemWrite i)

/-- ROM entry point (`entry_point` in the source). -/
def entry_point : Nat := 0x200

/-- The 80-byte font table from `init_chip8`. -/
def font : List Nat :=
  [0xF0, 0x90, 0x90, 0x90, 0xF0,
   0x20, 0x60, 0x20, 0x20, 0x70,
   0xF0, 0x10, 0xF0, 0x80, 0xF0,
   0xF0, 0x10, 0xF0, 0x10, 0xF0,
   0x90, 0x90, 0xF0, 0x10, 0x10,
   0xF0, 0x80, 0xF0, 0x10, 0xF0,
   0xF0, 0x80, 0xF0, 0x90, 0xF0,
   0xF0, 0x10, 0x20, 0x40, 0x40,
   0xF0, 0x90, 0xF0, 0x90, 0xF0,
   0xF0, 0x90, 0xF0, 0x10, 0xF0,
   0xF0, 0x90, 0xF0, 0x90, 0x90,
   0xE0, 0x90, 0xE0, 0x90, 0xE0,
   0xF0, 0x80, 0x80, 0x80, 0xF0,
   0xE0, 0x90, 0x90, 0x90, 0xE0,
   0xF0, 0x80, 0xF0, 0x80, 0xF0,
   0xF0, 0x80, 0xF0, 0x80, 0x80]

/-- The zero-initialized `Chip8 chip8{}` value created in `main`. -/
def zeroChip8 : Chip8 :=
  { state := .QUIT
    memory := List.replicate 4096 0
    display := List.replicate (64 * 32) false
    stack := List.replicate 12 0
    sp := 0
    V := List.replicate 16 0
    I := 0
    pc := 0
    delay_timer := 0
    sound_timer := 0
    keypad := List.replicate 16 false
    rom := ""
    inst := { opcode := 0, NNN := 0, NN := 0, N := 0, X := 0, Y := 0 }
    debug_mode := false
    instructions_executed := 0
    last_opcode := 0
    sprite_drawn_this_frame := false
    last_sprite_x := 0
    last_sprite_y := 0
    last_sprite_height := 0
    last_sprite_address := 0
    collision_detected := false }

/-- The `init_chip8` function: clears memory, re-seeds the font at
address 0, clears display/registers/stack/keypad, sets state PAUSE,
pc to the entry point, sp to the base of the stack, I and both timers
to 0, resets the debug-tracking fields and zeroes `inst`.  It does not
touch `rom` or `debug_mode`. -/
def init_chip8 (c : Chip8) : Chip8 :=
  { c with
    memory := font ++ List.replicate (4096 - 80) 0
    display := List.replicate (64 * 32) false
    V := List.replicate 16 0
    stack := List.replicate 12 0
    keypad := List.replicate 16 false
    state := .PAUSE
    pc := entry_point
    sp := 0
    I := 0
    delay_timer := 0
    sound_timer := 0
    instructions_executed := 0
    last_opcode := 0
    sprite_drawn_this_frame := false
    last_sprite_x := 0
    last_sprite_y := 0
    last_sprite_height := 0
    last_sprite_address := 0
    collision_detected := false
    inst := { opcode := 0, NNN := 0, NN := 0, N := 0, X := 0, Y := 0 } }

/-- The `loadROM` function.  The ROM bytes stand for the file contents
(an unreadable file is out of scope of the byte-level model).  On
success it clears `[0x200, 0x1000)`, copies the ROM bytes at `0x200`,
records the ROM identifier and sets the state to RUNNING — and touches
nothing else (no pc / sp / timer / keypad / register initialization;
callers run `init_chip8` separately before loading). -/
def loadROM (c : Chip8) (rom : String) (bytes : List Nat) : Option Chip8 :=
  if bytes.length > 4096 - entry_point then
    none
  else
    some { c with
      memory := c.memory.take entry_point ++ bytes
                  ++ List.replicate (4096 - entry_point - bytes.length) 0
      rom := rom
      state := .RUNNING }

/-- Inner bit loop of the DXYN case (`for (int col = 7; col >= 0; col--)`).
`fuel` is the number of columns still to process, so the current column
index is `fuel - 1` (the first iteration has `col = 7`).  Each iteration
reads the display pixel at `y * w + x`, sets `VF` (and the
`collision_detected` flag) when a set sprite bit meets a set pixel, XORs
the sprite bit into the pixel and stops the row once `x + 1` reaches the
display width (`if (++x >= config.window_width) break`). -/
def drawRow (w : Nat) (sprite : Nat) (y : Nat) : Nat → Nat → Chip8 → Chip8
  | 0, _, c => c
  | fuel + 1, x, c =>
    let col := fuel
    let idx := y * w + x
    let pixel := c.display.getD idx false
    let sprite_pixel : Bool := decide ((sprite / 2 ^ col) % 2 = 1)
    let c := if sprite_pixel && pixel then
               { c with V := c.V.set 15 1, collision_detected := true }
             else c
    let c := { c with display := c.display.set idx (xor pixel sprite_pixel) }
    if x + 1 ≥ w then c else drawRow w sprite y fuel (x + 1) c

/-- Row loop of the DXYN case (`for (int row = 0; row < N; row++)`).
`fuel` is the number of rows still to process and `row` the current row
index.  Each iteration reads the sprite byte at `memory[I + row]`
(faulting if out of range, as the C++ read is unchecked), resets `x` to
the original start column, draws the 8 bits of the row, and stops the
whole sprite once `y + 1` reaches the display height
(`if (++y >= config.window_height) break`). -/
def drawRows (cfg : Config) (x0 : Nat) : Nat → Nat → Nat → Chip8 → Except Fault Chip8
  | 0, _, _, c => .ok c
  | fuel + 1, row, y, c => do
    let sprite ← memRead c.memory (c.I + row)
    let c := drawRow cfg.window_width sprite y 8 x0 c
    if y + 1 ≥ cfg.window_height then .ok c
    else drawRows cfg x0 fuel (row + 1) (y + 1) c

/-- The `case 0x0D` block of `emulate_instructions`: wrap the start
coordinates at the display size, record the debug sprite info, reset
`VF` to 0 and run the row loop. -/
def execDXYN (cfg : Config) (c : Chip8) (X Y N : Nat) : Except Fault Chip8 :=
  let x0 := c.V.getD X 0 % cfg.window_width
  let y0 := c.V.getD Y 0 % cfg.window_height
  let c := { c with
    sprite_drawn_this_frame := true
    last_sprite_x := x0
    last_sprite_y := y0
    last_sprite_height := N
    last_sprite_address := c.I }
  let c := { c with V := c.V.set 15 0 }
  drawRows cfg x0 N 0 y0 c

/-- Keypad scan of the FX0A case (`for (int i = 0; i < 16; i++)`):
returns the first pressed key index, scanning upward from `i`;
`fuel` counts the remaining iterations (16 at the start). -/
def scanKeys (kp : List Bool) : Nat → Nat → Option Nat
  | 0, _ => none
  | fuel + 1, i => if kp.getD i false then some i else scanKeys kp fuel (i + 1)

/-- Store loop of FX55 (`for (int i = 0; i <= X; i++)
memory[I + i] = V[i]`), run with `fuel = X + 1` starting at `i = 0`. -/
def storeRegs (V : List Nat) (I : Nat) : Nat → Nat → List Nat → Except Fault (List Nat)
  | 0, _, m => .ok m
  | fuel + 1, i, m => do
    storeRegs V I fuel (i + 1) (← memWrite m (I + i) (V.getD i 0))

/-- Load loop of FX65 (`for (int i = 0; i <= X; i++)
V[i] = memory[I + i]`), run with `fuel = X + 1` starting at `i = 0`. -/
def loadRegs (m : List Nat) (I : Nat) : Nat → Nat → List Nat → Except Fault (List Nat)
  | 0, _, V => .ok V
  | fuel + 1, i, V => do
    loadRegs m I fuel (i + 1) (V.set i (← memRead m (I + i)))

/-- Dispatch of a decoded instruction: the `switch ((opcode >> 12) & 0x0F)`
of `emulate_instructions`, acting on the machine after the program
counter has already been advanced by the fetch.  `randVal` stands for
the `rand()` call of the CXNN case. -/
def exec0 (c : Chip8) (i : Instructions) : Except Fault Chip8 :=
  if i.opcode = 0x00E0 then
    .ok { c with display := List.replicate (64 * 32) false }
  else if i.opcode = 0x00EE then
    if c.sp = 0 then .error .oobStackRead
    else
      match c.stack[c.sp - 1]? with
      | some v => .ok { c with pc := v, sp := c.sp - 1 }
      | none => .error .oobStackRead
  else .ok c

/-- The `case 0x08` sub-switch on `N`: ALU operations between `VX` and
`VY`.  `Vy` is read once at the top (`uint8_t Vy = chip8->V[inst.Y]`),
while `*Vx` is re-read at each statement; for the subcases that write
the flag first and then `*Vx`, the second read sees the flag when
`X = 0xF`, exactly as the pointer aliasing does in C++. -/
def exec8 (c : Chip8) (i : Instructions) : Except Fault Chip8 :=
  let vx := c.V.getD i.X 0
  let vy := c.V.getD i.Y 0
  if i.N = 0x0 then .ok { c with V := c.V.set i.X vy }
  else if i.N = 0x1 then .ok { c with V := c.V.set i.X (vx ||| vy) }
  else if i.N = 0x2 then .ok { c with V := c.V.set i.X (vx &&& vy) }
  else if i.N = 0x3 then .ok { c with V := c.V.set i.X (vx ^^^ vy) }
  else if i.N = 0x4 then
    let sum := vx + vy
    let V1 := c.V.set 15 (if sum > 0xFF then 1 else 0)
    .ok { c with V := V1.set i.X (sum % 256) }
  else if i.N = 0x5 then
    let V1 := c.V.set 15 (if vx ≥ vy then 1 else 0)
    .ok { c with V := V1.set i.X ((V1.getD i.X 0 + 256 - vy % 256) % 256) }
  else if i.N = 0x6 then
    let V1 := c.V.set 15 (vx % 2)
    .ok { c with V := V1.set i.X (V1.getD i.X 0 / 2) }
  else if i.N = 0x7 then
    let V1 := c.V.set 15 (if vy ≥ vx then 1 else 0)
    .ok { c with V := V1.set i.X ((vy + 256 - V1.getD i.X 0 % 256) % 256) }
  else if i.N = 0xE then
    let V1 := c.V.set 15 ((vx / 2 ^ 7) % 2)
    .ok { c with V := V1.set i.X (V1.getD i.X 0 * 2 % 256) }
  else .ok c

/-- The `case 0x0E` pair: skip on key pressed / not pressed. -/
def execE (c : Chip8) (i : Instructions) : Except Fault Chip8 :=
  if i.NN = 0x9E then
    .ok (if c.keypad.getD (c.V.getD i.X 0) false then
           { c with pc := (c.pc + 2) % 65536 } else c)
  else if i.NN = 0xA1 then
    .ok (if !c.keypad.getD (c.V.getD i.X 0) false then
           { c with pc := (c.pc + 2) % 65536 } else c)
  else .ok c

/-- The `case 0x0F` sub-switch on `NN`: key wait, timers, index
arithmetic, BCD and register block transfers. -/
def execF (c : Chip8) (i : Instructions) : Except Fault Chip8 :=
  if i.NN = 0x0A then
    match scanKeys c.keypad 16 0 with
    | some k => .ok { c with V := c.V.set i.X k }
    | none => .ok { c with pc := (c.pc + 65536 - 2) % 65536 }
  else if i.NN = 0x1E then .ok { c with I := (c.I + c.V.getD i.X 0) % 65536 }
  else if i.NN = 0x07 then .ok { c with V := c.V.set i.X c.delay_timer }
  else if i.NN = 0x15 then .ok { c with delay_timer := c.V.getD i.X 0 }
  else if i.NN = 0x18 then .ok { c with sound_timer := c.V.getD i.X 0 }
  else if i.NN = 0x29 then .ok { c with I := c.V.getD i.X 0 * 5 }
  else if i.NN = 0x33 then do
    let bcd := c.V.getD i.X 0
    let m ← memWrite c.memory (c.I + 2) (bcd % 10)
    let bcd := bcd / 10
    let m ← memWrite m (c.I + 1) (bcd % 10)
    let bcd := bcd / 10
    let m ← memWrite m c.I bcd
    .ok { c with memory := m }
  else if i.NN = 0x55 then do
    .ok { c with memory := ← storeRegs c.V c.I (i.X + 1) 0 c.memory }
  else if i.NN = 0x65 then do
    .ok { c with V := ← loadRegs c.memory c.I (i.X + 1) 0 c.V }
  else .ok c

/-- Dispatch of a decoded instruction: the `switch ((opcode >> 12) & 0x0F)`
of `emulate_instructions`, acting on the machine after the program
counter has already been advanced by the fetch.  `randVal` stands for
the `rand()` call of the CXNN case.  The 0x0, 0x8, 0xE and 0xF families
sub-dispatch in `exec0`, `exec8`, `execE` and `execF`; 0xD draws via
`execDXYN`. -/
def execInstr (cfg : Config) (randVal : Nat) (c : Chip8) (i : Instructions) :
    Except Fault Chip8 :=
  let top := (i.opcode / 2 ^ 12) % 16
  if top = 0x0 then exec0 c i
  else if top = 0x1 then .ok { c with pc := i.NNN }
  else if top = 0x2 then
    if c.sp < c.stack.length then
      .ok { c with stack := c.stack.set c.sp c.pc, sp := c.sp + 1, pc := i.NNN }
    else .error .oobStackWrite
  else if top = 0x3 then
    .ok (if c.V.getD i.X 0 = i.NN then { c with pc := (c.pc + 2) % 65536 } else c)
  else if top = 0x4 then
    .ok (if c.V.getD i.X 0 ≠ i.NN then { c with pc := (c.pc + 2) % 65536 } else c)
  else if top = 0x5 then
    if i.N ≠ 0 then .ok c
    else .ok (if c.V.getD i.X 0 = c.V.getD i.Y 0 then
                { c with pc := (c.pc + 2) % 65536 } else c)
  else if top = 0x6 then .ok { c with V := c.V.set i.X i.NN }
  else if top = 0x7 then .ok { c with V := c.V.set i.X ((c.V.getD i.X 0 + i.NN) % 256) }
  else if top = 0x8 then exec8 c i
  else if top = 0x9 then
    if i.N ≠ 0 then .ok c
    else .ok (if c.V.getD i.X 0 ≠ c.V.getD i.Y 0 then
                { c with pc := (c.pc + 2) % 65536 } else c)
  else if top = 0xA then .ok { c with I := i.NNN }
  else if top = 0xB then .ok { c with pc := (i.NNN + c.V.getD 0 0) % 65536 }
  else if top = 0xC then .ok { c with V := c.V.set i.X ((randVal % 256) &&& i.NN) }
  else if top = 0xD then execDXYN cfg c i.X i.Y i.N
  else if top = 0xE then execE c i
  else if top = 0xF then execF c i
  else .ok c

/-- Decode the big-endian opcode word `hi * 256 + lo` into the
NNN/NN/N/X/Y fields (`opcode & 0x0FFF` is `% 2^12`, `(opcode >> 8) &
0x0F` is `/ 2^8 % 16`, and so on). -/
def decode (hi lo : Nat) : Instructions :=
  let opcode := hi * 256 + lo
  { opcode := opcode
    NNN := opcode % 2 ^ 12
    NN := opcode % 2 ^ 8
    N := opcode % 2 ^ 4
    X := (opcode / 2 ^ 8) % 16
    Y := (opcode / 2 ^ 4) % 16 }

/-- The machine record right after the fetch header of
`emulate_instructions`: sprite flag reset, previous opcode remembered,
decoded instruction stored, `pc` advanced by 2 (16-bit wraparound), and
the executed-instruction counter bumped (32-bit wraparound). -/
def afterFetch (c : Chip8) (hi lo : Nat) : Chip8 :=
  { c with
    sprite_drawn_this_frame := false
    last_opcode := c.inst.opcode
    inst := decode hi lo
    pc := (c.pc + 2) % 65536
    instructions_executed := (c.instructions_executed + 1) % 2 ^ 32 }

/-- The `emulate_instructions` function: reset the per-frame sprite
flag, remember the previous opcode, fetch the big-endian opcode at
`pc` (each byte read is unchecked in C++ and so may fault), advance
`pc` by 2, decode the NNN/NN/N/X/Y fields, bump the executed-instruction
counter, and dispatch. -/
def emulate_instructions (cfg : Config) (randVal : Nat) (c : Chip8) :
    Except Fault Chip8 := do
  let hi ← memRead c.memory c.pc
  let lo ← memRead c.memory (c.pc + 1)
  execInstr cfg randVal (afterFetch c hi lo) (decode hi lo)

/-- The 60 Hz timer decrement performed once at the top of a RUNNING
frame of the main loop: each timer goes down by 1 if positive and
stays at 0 otherwise. -/
def decrement_timers (c : Chip8) : Chip8 :=
  let c := if c.delay_timer > 0 then { c with delay_timer := c.delay_timer - 1 } else c
  if c.sound_timer > 0 then { c with sound_timer := c.sound_timer - 1 } else c

/-- Run `n` consecutive instruction steps
(`for (uint32_t i = 0; i < config.clock_rate / 60; i++)`); the `rands`
stream supplies one `rand()` value per step. -/
def stepsN (cfg : Config) (rands : Nat → Nat) : Nat → Chip8 → Except Fault Chip8
  | 0, c => .ok c
  | n + 1, c => emulate_instructions cfg (rands n) c >>= stepsN cfg rands n

/-- One iteration of the emulation part of the main loop: if the machine
is RUNNING, decrement both timers once, then either force PAUSE (debug
single-step mode) or execute `clock_rate / 60` instructions. -/
def machine_frame (cfg : Config) (rands : Nat → Nat) (c : Chip8) :
    Except Fault Chip8 :=
  if c.state = EmulatorState.RUNNING then
    let c := decrement_timers c
    if c.debug_mode then .ok { c with state := EmulatorState.PAUSE }
    else stepsN cfg rands (cfg.clock_rate / 60) c
  else .ok c

/-- The ROM-loading path the UI takes: `init_chip8` followed by
`loadROM` (falling back to the reset machine if the load fails). -/
def boot (bytes : List Nat) : Chip8 :=
  match loadROM (init_chip8 zeroChip8) "test" bytes with
  | some c => c
  | none => init_chip8 zeroChip8

deriving instance DecidableEq for Except

/-! Concrete machine states used as explicit inputs of the claims. -/

/-- A machine whose `8F04` instruction adds `V0` into the flag register
`VF` itself: `VF = 200`, `V0 = 100`. -/
def c2cex_state : Chip8 :=
  { zeroChip8 with
    memory := ((List.replicate 4096 0).set 0x200 0x8F).set 0x201 0x04
    V := ((List.replicate 16 0).set 15 200).set 0 100
    pc := 0x200
    state := .RUNNING }

/-- A machine whose program counter sits on the last byte of memory, so
the 2-byte fetch would touch index 4096. -/
def c4_state : Chip8 :=
  { zeroChip8 with pc := 4095, state := .RUNNING }

/-- A machine with a full call stack (depth 12) about to execute the
subroutine call `0x2300`. -/
def c5_state : Chip8 :=
  { zeroChip8 with
    memory := ((List.replicate 4096 0).set 0x200 0x23).set 0x201 0x00
    stack := List.replicate 12 0x456
    sp := 12
    pc := 0x200
    state := .RUNNING }

/-- A machine with scrambled pc / stack pointer / timers / keypad and a
nonzero register, used to observe what `loadROM` does (and does not)
initialize. -/
def c6cex_state : Chip8 :=
  { zeroChip8 with
    pc := 0
    sp := 5
    delay_timer := 9
    sound_timer := 4
    keypad := (List.replicate 16 false).set 3 true
    V := (List.replicate 16 0).set 3 7 }

/-- ROM raising `I` to `0xFFF + 0xFF = 0x10FE` and then running `FX33`:
`60FF` (V0 = 0xFF), `AFFF` (I = 0xFFF), `F01E` (I += V0), `F033`. -/
def rom_fx33 : List Nat := [0x60, 0xFF, 0xAF, 0xFF, 0xF0, 0x1E, 0xF0, 0x33]

/-- Same prefix followed by `F055` (store V0 at memory[I]). -/
def rom_fx55 : List Nat := [0x60, 0xFF, 0xAF, 0xFF, 0xF0, 0x1E, 0xF0, 0x55]

/-- Same prefix followed by `F065` (load V0 from memory[I]). -/
def rom_fx65 : List Nat := [0x60, 0xFF, 0xAF, 0xFF, 0xF0, 0x1E, 0xF0, 0x65]

/-- Same prefix followed by `D001` (draw a 1-row sprite from memory[I]). -/
def rom_dxyn : List Nat := [0x60, 0xFF, 0xAF, 0xFF, 0xF0, 0x1E, 0xD0, 0x01]

/-- Spec-side definition (the spec's words): the draw start column,
`VX mod display_width`. -/
def spec_DXYN_startX (cfg : Config) (c : Chip8) (X : Nat) : Nat :=
  c.V.getD X 0 % cfg.window_width

/-- Spec-side definition (the spec's words): the draw start row,
`VY mod display_height`. -/
def spec_DXYN_startY (cfg : Config) (c : Chip8) (Y : Nat) : Nat :=
  c.V.getD Y 0 % cfg.window_height

/-- Spec-side definition (the spec's words): bit `t` (MSB first) of the
sprite row byte read from `memory[I + r]`. -/
def spec_DXYN_bit (c : Chip8) (r t : Nat) : Nat :=
  c.memory.getD (c.I + r) 0 / 2 ^ (7 - t) % 2

/-- Spec-side definition (the spec's words): a collision happens when a
set sprite bit meets an already-set display cell inside the clipped
sprite rectangle (each row stops at the display width, the sprite stops
at the display height). -/
def spec_DXYN_collision (cfg : Config) (c : Chip8) (x0 y0 N : Nat) : Prop :=
  ∃ r, r < min N (cfg.window_height - y0) ∧
    ∃ t, t < min 8 (cfg.window_width - x0) ∧
    spec_DXYN_bit c r t = 1 ∧
    c.display.getD ((y0 + r) * cfg.window_width + (x0 + t)) false = true

instance spec_DXYN_collision_decidable (cfg : Config) (c : Chip8) (x0 y0 N : Nat) :
    Decidable (spec_DXYN_collision cfg c x0 y0 N) := by
  unfold spec_DXYN_collision spec_DXYN_bit
  infer_instance

/-- Spec-side definition (the spec's words): display cell `idx` is
toggled exactly when some clipped sprite position `(r, t)` maps to it
with a set sprite bit. -/
def spec_DXYN_flips (cfg : Config) (c : Chip8) (x0 y0 N idx : Nat) : Prop :=
  ∃ r, r < min N (cfg.window_height - y0) ∧
    ∃ t, t < min 8 (cfg.window_width - x0) ∧
    idx = (y0 + r) * cfg.window_width + (x0 + t) ∧
    spec_DXYN_bit c r t = 1

instance spec_DXYN_flips_decidable (cfg : Config) (c : Chip8) (x0 y0 N idx : Nat) :
    Decidable (spec_DXYN_flips cfg c x0 y0 N idx) := by
  unfold spec_DXYN_flips spec_DXYN_bit
  infer_instance

/-! Helper lemmas about the embedding. -/

theorem getD_set_self {α : Type} (l : List α) (i : Nat) (v d : α)
    (h : i < l.length) : (l.set i v).getD i d = v := by
  simp [List.getD_eq_getElem?_getD, List.getElem?_set_self h]

theorem getD_set_ne {α : Type} (l : List α) (i j : Nat) (v d : α)
    (h : i ≠ j) : (l.set i v).getD j d = l.getD j d := by
  simp [List.getD_eq_getElem?_getD, List.getElem?_set_ne h]

/-- A successful two-byte fetch turns `emulate_instructions` into the
dispatch of the decoded word on the post-fetch machine. -/
theorem emulate_eq_of_fetch (cfg : Config) (r : Nat) (c : Chip8) (hi lo : Nat)
    (h1 : c.memory[c.pc]? = some hi) (h2 : c.memory[c.pc + 1]? = some lo) :
    emulate_instructions cfg r c = execInstr cfg r (afterFetch c hi lo) (decode hi lo) := by
  simp only [emulate_instructions, memRead, h1, h2]
  rfl

theorem decode_opcode (hi lo : Nat) : (decode hi lo).opcode = hi * 256 + lo := rfl

theorem decode_top (hi lo : Nat) :
    (decode hi lo).opcode / 4096 % 16 = (hi * 256 + lo) / 4096 % 16 := by
  simp only [decode_opcode]

theorem decode_X (hi lo : Nat) (hlo : lo < 256) : (decode hi lo).X = hi % 16 := by
  simp only [decode]; omega

theorem decode_Y (hi lo : Nat) : (decode hi lo).Y = lo / 16 % 16 := by
  simp only [decode]; omega

theorem decode_N (hi lo : Nat) : (decode hi lo).N = lo % 16 := by
  simp only [decode]; omega

theorem decode_NN (hi lo : Nat) (hlo : lo < 256) : (decode hi lo).NN = lo := by
  simp only [decode]; omega

theorem decode_NNN (hi lo : Nat) (hlo : lo < 256) :
    (decode hi lo).NNN = hi % 16 * 256 + lo := by
  simp only [decode]; omega

/-! Claim C2 — the 8XY4 add-with-carry contract. -/

/-- C2 (counterexample): the claim "8XY4 sets VF to the carry for every
X and Y" fails at `X = 0xF`: on a machine with `VF = 200`, `V0 = 100`
executing `8F04`, the sum 300 exceeds 255, so the claim demands
`VF = 1`, but the code's subsequent result write leaves
`VF = 300 % 256 = 44`. -/
theorem C2_add_carry_cex :
    c2cex_state.V.getD 15 0 = 200 ∧ c2cex_state.V.getD 0 0 = 100 ∧
    200 + 100 > 255 ∧
    (emulate_instructions set_config_from_args 0 c2cex_state).map
      (fun d => d.V.getD 15 0) = .ok 44 ∧ (44 : Nat) ≠ 1 := by
  have h1 : c2cex_state.memory[c2cex_state.pc]? = some 0x8F := by
    simp only [c2cex_state, List.getElem?_set, List.getElem?_replicate,
      List.length_set, List.length_replicate]
    norm_num
  have h2 : c2cex_state.memory[c2cex_state.pc + 1]? = some 0x04 := by
    simp only [c2cex_state, List.getElem?_set, List.getElem?_replicate,
      List.length_set, List.length_replicate]
    norm_num
  refine ⟨by decide, by decide, by decide, ?_, by decide⟩
  rw [emulate_eq_of_fetch _ _ _ 0x8F 0x04 h1 h2]
  decide

/-- C2 (amended): executing `8XY4` always stores `(VX + VY) % 256` into
`VX`; the flag register receives the carry (1 iff `VX + VY > 255`)
whenever `X ≠ 0xF`, but for `X = 0xF` the result write overwrites the
carry, so `VF` ends at `(VF + VY) % 256`. -/
theorem C2_add_carry (cfg : Config) (r : Nat) (c : Chip8) (X Y : Nat)
    (hV : c.V.length = 16) (hX : X < 16) (hY : Y < 16)
    (h1 : c.memory[c.pc]? = some (0x80 + X))
    (h2 : c.memory[c.pc + 1]? = some (0x10 * Y + 4)) :
    ∃ d, emulate_instructions cfg r c = .ok d ∧
      d.V.getD X 0 = (c.V.getD X 0 + c.V.getD Y 0) % 256 ∧
      (X ≠ 15 → d.V.getD 15 0 =
        (if c.V.getD X 0 + c.V.getD Y 0 > 255 then 1 else 0)) ∧
      (X = 15 → d.V.getD 15 0 = (c.V.getD 15 0 + c.V.getD Y 0) % 256) := by
  rw [emulate_eq_of_fetch cfg r c _ _ h1 h2]
  have htop : (decode (0x80 + X) (0x10 * Y + 4)).opcode / 4096 % 16 = 8 := by
    simp only [decode_opcode]; omega
  have hX' : (decode (0x80 + X) (0x10 * Y + 4)).X = X := by
    rw [decode_X _ _ (by omega)]; omega
  have hY' : (decode (0x80 + X) (0x10 * Y + 4)).Y = Y := by
    rw [decode_Y]; omega
  have hN' : (decode (0x80 + X) (0x10 * Y + 4)).N = 4 := by
    rw [decode_N]; omega
  norm_num [execInstr, exec8, htop, hX', hY', hN', afterFetch]
  refine ⟨?_, fun hne => ?_, fun heq => ?_⟩
  · rw [List.getElem?_set_self (by simp [hV, hX]), Option.getD_some]
  · rw [List.getElem?_set_ne hne, List.getElem?_set_self (by simp [hV]),
      Option.getD_some]
  · subst heq
    rw [List.getElem?_set_self (by simp [hV]), Option.getD_some]

/-- C2 (witness): the amended theorem applied to a machine executing
`8124` with `V1 = 200`, `V2 = 100`. -/
theorem C2_add_carry_witness :
    (let c : Chip8 :=
      { zeroChip8 with
        memory := ((List.replicate 4096 0).set 0x200 0x81).set 0x201 0x24
        V := ((List.replicate 16 0).set 1 200).set 2 100
        pc := 0x200
        state := .RUNNING }
    c.V.length = 16 ∧ (1 : Nat) < 16 ∧ (2 : Nat) < 16 ∧
    c.memory[c.pc]? = some (0x80 + 1) ∧
    c.memory[c.pc + 1]? = some (0x10 * 2 + 4) ∧
    ∃ d, emulate_instructions set_config_from_args 0 c = .ok d ∧
      d.V.getD 1 0 = (c.V.getD 1 0 + c.V.getD 2 0) % 256 ∧
      ((1 : Nat) ≠ 15 → d.V.getD 15 0 =
        (if c.V.getD 1 0 + c.V.getD 2 0 > 255 then 1 else 0)) ∧
      ((1 : Nat) = 15 → d.V.getD 15 0 = (c.V.getD 15 0 + c.V.getD 2 0) % 256)) := by
  refine ⟨by decide, by decide, by decide, ?_, ?_, ?_⟩
  · simp only [List.getElem?_set, List.getElem?_replicate,
      List.length_set, List.length_replicate]
    norm_num
  · simp only [List.getElem?_set, List.getElem?_replicate,
      List.length_set, List.length_replicate]
    norm_num
  · exact C2_add_carry set_config_from_args 0 _ 1 2 (by decide) (by decide) (by decide)
      (by simp only [List.getElem?_set, List.getElem?_replicate,
            List.length_set, List.length_replicate]; norm_num)
      (by simp only [List.getElem?_set, List.getElem?_replicate,
            List.length_set, List.length_replicate]; norm_num)

/-! Claim C4 — fetch at the memory bound. -/

/-- C4: on a machine whose `pc` is 4095, the fetch attempts the
out-of-range read `memory[4096]` (undefined behavior in the C++ source,
surfaced as `Fault.oobMemRead`); no `CorruptedFetch` error value exists
anywhere in the code. -/
theorem C4_fetch_oob_read :
    c4_state.pc + 1 = 4096 ∧ c4_state.memory.length = 4096 ∧
    emulate_instructions set_config_from_args 0 c4_state =
      .error (.oobMemRead 4096) := by
  have h1 : c4_state.memory[c4_state.pc]? = some 0 := by
    simp only [c4_state, zeroChip8, List.getElem?_replicate]
    norm_num
  have h2 : c4_state.memory[c4_state.pc + 1]? = none := by
    simp only [c4_state, zeroChip8, List.getElem?_replicate]
    norm_num
  refine ⟨by decide, by simp only [c4_state, zeroChip8, List.length_replicate], ?_⟩
  simp only [emulate_instructions, memRead, h1, h2]
  rfl

/-! Claim C5 — subroutine call on a full stack. -/

/-- C5: on a machine whose call stack is full (`sp = 12`), the call
`0x2300` performs the unchecked write `*sp++` past the end of the
12-entry stack array (undefined behavior in the C++ source, surfaced
as `Fault.oobStackWrite`); no `StackOverflow` error value exists
anywhere in the code. -/
theorem C5_call_overflow_oob_write :
    c5_state.sp = 12 ∧ c5_state.stack.length = 12 ∧
    emulate_instructions set_config_from_args 0 c5_state =
      .error .oobStackWrite := by
  have h1 : c5_state.memory[c5_state.pc]? = some 0x23 := by
    simp only [c5_state, List.getElem?_set, List.getElem?_replicate,
      List.length_set, List.length_replicate]
    norm_num
  have h2 : c5_state.memory[c5_state.pc + 1]? = some 0x00 := by
    simp only [c5_state, List.getElem?_set, List.getElem?_replicate,
      List.length_set, List.length_replicate]
    norm_num
  refine ⟨by decide, by decide, ?_⟩
  rw [emulate_eq_of_fetch _ _ _ 0x23 0x00 h1 h2]
  decide

/-! Claim C6 — what a successful `loadROM` initializes. -/

/-- C6 (counterexample): `loadROM` alone does not set `PC = 0x200` and
does not clear the stack pointer, the timers or the keypad: loading a
1-byte ROM into a machine with `pc = 0`, `sp = 5`, `delay = 9`,
`sound = 4` and key 3 held succeeds and leaves all of them as they
were. -/
theorem C6_load_cex :
    (loadROM c6cex_state "r" [0xAA]).map
      (fun d => (d.pc, d.sp, d.delay_timer, d.sound_timer, d.keypad.getD 3 false)) =
      some (0, 5, 9, 4, true) ∧
    (0 : Nat) ≠ 0x200 ∧ (5 : Nat) ≠ 0 ∧ (9 : Nat) ≠ 0 := by
  refine ⟨?_, by decide, by decide, by decide⟩
  decide

/-- C6 (amended): a successful `loadROM` of `len ≤ 3584` bytes zeroes
`[0x200, 0x1000)`, copies the ROM into `[0x200, 0x200 + len)`, keeps
the bytes below `0x200` intact, sets the machine state to RUNNING and
records the ROM identifier — and leaves `pc`, the stack pointer, both
timers, the keypad, the registers, the stack and `I` exactly as they
were (the pc/sp/timer/keypad initialization the claim describes lives
in `init_chip8`, which callers invoke separately before loading, and
which clears the registers as well). -/
theorem C6_loadROM_effect (c : Chip8) (rom : String) (bytes : List Nat)
    (hmem : c.memory.length = 4096) (hlen : bytes.length ≤ 3584) :
    ∃ d, loadROM c rom bytes = some d ∧
      (∀ i, i < 512 → d.memory[i]? = c.memory[i]?) ∧
      (∀ j, j < bytes.length → d.memory[512 + j]? = bytes[j]?) ∧
      (∀ i, 512 + bytes.length ≤ i → i < 4096 → d.memory[i]? = some 0) ∧
      d.memory.length = 4096 ∧
      d.pc = c.pc ∧ d.sp = c.sp ∧ d.delay_timer = c.delay_timer ∧
      d.sound_timer = c.sound_timer ∧ d.keypad = c.keypad ∧ d.V = c.V ∧
      d.stack = c.stack ∧ d.I = c.I ∧
      d.state = .RUNNING ∧ d.rom = rom := by
  have hguard : ¬ bytes.length > 4096 - entry_point := by
    simp only [entry_point]; omega
  have htake : (c.memory.take entry_point).length = 512 := by
    rw [List.length_take, hmem]; rfl
  refine ⟨{ c with
      memory := List.take entry_point c.memory ++ bytes
                  ++ List.replicate (4096 - entry_point - bytes.length) 0
      rom := rom
      state := .RUNNING },
    by unfold loadROM; rw [if_neg hguard],
    ?_, ?_, ?_, ?_, rfl, rfl, rfl, rfl, rfl, rfl, rfl, rfl, rfl, rfl⟩
  · intro i hi
    rw [List.getElem?_append_left (by rw [List.length_append, htake]; omega),
      List.getElem?_append_left (by rw [htake]; omega),
      List.getElem?_take, if_pos (by simpa [entry_point] using hi)]
  · intro j hj
    rw [List.getElem?_append_left
        (by rw [List.length_append, htake]; omega),
      List.getElem?_append_right (by rw [htake]; omega)]
    congr 1
    rw [htake]
    omega
  · intro i h1 h2
    rw [List.getElem?_append_right
        (by rw [List.length_append, htake]; omega),
      List.getElem?_replicate,
      if_pos (by rw [List.length_append, htake]; simp only [entry_point]; omega)]
  · rw [List.length_append, List.length_append, htake, List.length_replicate]
    simp only [entry_point]
    omega

/-- C6 (witness): the amended theorem applied to the freshly reset
machine and a 3-byte ROM. -/
theorem C6_loadROM_effect_witness :
    zeroChip8.memory.length = 4096 ∧ ([1, 2, 3] : List Nat).length ≤ 3584 ∧
    ∃ d, loadROM zeroChip8 "w" [1, 2, 3] = some d ∧
      (∀ i, i < 512 → d.memory[i]? = zeroChip8.memory[i]?) ∧
      (∀ j, j < ([1, 2, 3] : List Nat).length → d.memory[512 + j]? = [1, 2, 3][j]?) ∧
      (∀ i, 512 + ([1, 2, 3] : List Nat).length ≤ i → i < 4096 → d.memory[i]? = some 0) ∧
      d.memory.length = 4096 ∧
      d.pc = zeroChip8.pc ∧ d.sp = zeroChip8.sp ∧
      d.delay_timer = zeroChip8.delay_timer ∧
      d.sound_timer = zeroChip8.sound_timer ∧ d.keypad = zeroChip8.keypad ∧
      d.V = zeroChip8.V ∧ d.stack = zeroChip8.stack ∧ d.I = zeroChip8.I ∧
      d.state = .RUNNING ∧ d.rom = "w" :=
  ⟨by simp only [zeroChip8, List.length_replicate], by decide,
    C6_loadROM_effect zeroChip8 "w" [1, 2, 3]
      (by simp only [zeroChip8, List.length_replicate]) (by decide)⟩

/-! The FX0A keypad scan. -/

/-- If no key reads as pressed, the scan comes up empty. -/
theorem scanKeys_none (kp : List Bool) (h : ∀ j, kp.getD j false = false) :
    ∀ fuel i, scanKeys kp fuel i = none := by
  intro fuel
  induction fuel with
  | zero => intro i; rfl
  | succ n ih => intro i; simp only [scanKeys, h i, Bool.false_eq_true, if_false]; exact ih (i + 1)

/-- The scan returns the first pressed index at or after its start. -/
theorem scanKeys_some (kp : List Bool) (k : Nat) :
    ∀ fuel i, i ≤ k → k < i + fuel →
      kp.getD k false = true →
      (∀ j, i ≤ j → j < k → kp.getD j false = false) →
      scanKeys kp fuel i = some k := by
  intro fuel
  induction fuel with
  | zero => intro i h1 h2 _ _; omega
  | succ n ih =>
    intro i h1 h2 hk hmin
    cases hgi : kp.getD i false with
    | true =>
      have hik : i = k := by
        by_contra hne
        rw [hmin i le_rfl (by omega)] at hgi
        exact Bool.noConfusion hgi
      subst hik
      simp only [scanKeys, hgi, if_true]
    | false =>
      have hik : i ≠ k := fun h => by rw [h, hk] at hgi; exact Bool.noConfusion hgi
      simp only [scanKeys, hgi, Bool.false_eq_true, if_false]
      exact ih (i + 1) (by omega) (by omega) hk fun j hj1 hj2 => hmin j (by omega) hj2

/-! Claim C7 — FX0A blocking key wait. -/

/-- C7: executing `FX0A` with no key pressed rewinds the fetch's pc
advance, so the program counter and every register are unchanged (the
instruction repeats); with at least one key pressed, `VX` receives a
pressed key's index and pc keeps its post-fetch value. -/
theorem C7_fx0a_wait (cfg : Config) (r : Nat) (c : Chip8) (X : Nat)
    (hmem : c.memory.length = 4096) (hkp : c.keypad.length = 16) (hX : X < 16)
    (h1 : c.memory[c.pc]? = some (0xF0 + X))
    (h2 : c.memory[c.pc + 1]? = some 0x0A) :
    ((∀ k, k < 16 → c.keypad.getD k false = false) →
      ∃ d, emulate_instructions cfg r c = .ok d ∧ d.pc = c.pc ∧ d.V = c.V) ∧
    (∀ k, k < 16 → c.keypad.getD k false = true →
      ∃ j, j < 16 ∧ c.keypad.getD j false = true ∧
        ∃ d, emulate_instructions cfg r c = .ok d ∧
          d.V = c.V.set X j ∧ d.pc = (c.pc + 2) % 65536) := by
  have hpc : c.pc < 4096 := by
    by_contra h
    rw [List.getElem?_eq_none (by omega)] at h1
    exact Option.noConfusion h1
  rw [emulate_eq_of_fetch cfg r c _ _ h1 h2]
  have htop : (decode (0xF0 + X) 0x0A).opcode / 4096 % 16 = 15 := by
    simp only [decode_opcode]; omega
  have hNN : (decode (0xF0 + X) 0x0A).NN = 0x0A := decode_NN _ _ (by omega)
  have hX' : (decode (0xF0 + X) 0x0A).X = X := by
    rw [decode_X _ _ (by omega)]; omega
  constructor
  · intro hnone
    have hall : ∀ j, c.keypad.getD j false = false := by
      intro j
      by_cases hj : j < 16
      · exact hnone j hj
      · rw [List.getD_eq_getElem?_getD, List.getElem?_eq_none (by omega)]
        rfl
    have hscan : scanKeys c.keypad 16 0 = none := scanKeys_none c.keypad hall 16 0
    norm_num [execInstr, execF, htop, hNN, hX', afterFetch, hscan]
    omega
  · intro k hk16 hk
    have hfind : ∃ j, c.keypad.getD j false = true := ⟨k, hk⟩
    let j0 := Nat.find hfind
    have hj0 : c.keypad.getD j0 false = true := Nat.find_spec hfind
    have hj0min : ∀ j, j < j0 → c.keypad.getD j false = false := by
      intro j hj
      have := Nat.find_min hfind hj
      simpa using this
    have hj016 : j0 < 16 := by
      by_contra h
      rw [List.getD_eq_getElem?_getD, List.getElem?_eq_none (by omega)] at hj0
      exact Bool.noConfusion hj0
    have hscan : scanKeys c.keypad 16 0 = some j0 :=
      scanKeys_some c.keypad j0 16 0 (by omega) (by omega) hj0
        (fun j _ hj2 => hj0min j hj2)
    refine ⟨j0, hj016, hj0, ?_⟩
    norm_num [execInstr, execF, htop, hNN, hX', afterFetch, hscan]

/-- C7 (witness): the theorem applied to a machine executing `F30A`
with no key pressed. -/
theorem C7_fx0a_wait_witness :
    (let c : Chip8 :=
      { zeroChip8 with
        memory := ((List.replicate 4096 0).set 0x200 0xF3).set 0x201 0x0A
        pc := 0x200
        state := .RUNNING }
    c.memory.length = 4096 ∧ c.keypad.length = 16 ∧ (3 : Nat) < 16 ∧
    c.memory[c.pc]? = some (0xF0 + 3) ∧ c.memory[c.pc + 1]? = some 0x0A ∧
    (((∀ k, k < 16 → c.keypad.getD k false = false) →
      ∃ d, emulate_instructions set_config_from_args 0 c = .ok d ∧
        d.pc = c.pc ∧ d.V = c.V) ∧
    (∀ k, k < 16 → c.keypad.getD k false = true →
      ∃ j, j < 16 ∧ c.keypad.getD j false = true ∧
        ∃ d, emulate_instructions set_config_from_args 0 c = .ok d ∧
          d.V = c.V.set 3 j ∧ d.pc = (c.pc + 2) % 65536))) := by
  refine ⟨?_, by decide, by decide, ?_, ?_, ?_⟩
  · simp only [List.length_set, List.length_replicate]
  · simp only [List.getElem?_set, List.getElem?_replicate,
      List.length_set, List.length_replicate]
    norm_num
  · simp only [List.getElem?_set, List.getElem?_replicate,
      List.length_set, List.length_replicate]
    norm_num
  · exact C7_fx0a_wait set_config_from_args 0 _ 3
      (by simp only [List.length_set, List.length_replicate]) (by decide) (by decide)
      (by simp only [List.getElem?_set, List.getElem?_replicate,
            List.length_set, List.length_replicate]; norm_num)
      (by simp only [List.getElem?_set, List.getElem?_replicate,
            List.length_set, List.length_replicate]; norm_num)

/-! Claim C10 — FX0A picks the lowest pressed key. -/

/-- C10: when several keys are pressed, `FX0A` stores the lowest pressed
key index into `VX`: the keypad is scanned from key 0 upward and the
first pressed key wins. -/
theorem C10_fx0a_lowest_key (cfg : Config) (r : Nat) (c : Chip8) (X k : Nat)
    (hX : X < 16) (hk16 : k < 16)
    (h1 : c.memory[c.pc]? = some (0xF0 + X))
    (h2 : c.memory[c.pc + 1]? = some 0x0A)
    (hk : c.keypad.getD k false = true)
    (hmin : ∀ j, j < k → c.keypad.getD j false = false) :
    ∃ d, emulate_instructions cfg r c = .ok d ∧
      d.V = c.V.set X k ∧ d.pc = (c.pc + 2) % 65536 := by
  rw [emulate_eq_of_fetch cfg r c _ _ h1 h2]
  have htop : (decode (0xF0 + X) 0x0A).opcode / 4096 % 16 = 15 := by
    simp only [decode_opcode]; omega
  have hNN : (decode (0xF0 + X) 0x0A).NN = 0x0A := decode_NN _ _ (by omega)
  have hX' : (decode (0xF0 + X) 0x0A).X = X := by
    rw [decode_X _ _ (by omega)]; omega
  have hscan : scanKeys c.keypad 16 0 = some k :=
    scanKeys_some c.keypad k 16 0 (by omega) (by omega) hk
      (fun j _ hj2 => hmin j hj2)
  norm_num [execInstr, execF, htop, hNN, hX', afterFetch, hscan]

/-- C10 (witness): keys 3 and 9 pressed, `F50A` stores 3 into `V5`. -/
theorem C10_fx0a_lowest_key_witness :
    (let c : Chip8 :=
      { zeroChip8 with
        memory := ((List.replicate 4096 0).set 0x200 0xF5).set 0x201 0x0A
        keypad := ((List.replicate 16 false).set 3 true).set 9 true
        pc := 0x200
        state := .RUNNING }
    (5 : Nat) < 16 ∧ (3 : Nat) < 16 ∧
    c.memory[c.pc]? = some (0xF0 + 5) ∧ c.memory[c.pc + 1]? = some 0x0A ∧
    c.keypad.getD 3 false = true ∧ (∀ j, j < 3 → c.keypad.getD j false = false) ∧
    ∃ d, emulate_instructions set_config_from_args 0 c = .ok d ∧
      d.V = c.V.set 5 3 ∧ d.pc = (c.pc + 2) % 65536) := by
  refine ⟨by decide, by decide, ?_, ?_, by decide, by decide, ?_⟩
  · simp only [List.getElem?_set, List.getElem?_replicate,
      List.length_set, List.length_replicate]
    norm_num
  · simp only [List.getElem?_set, List.getElem?_replicate,
      List.length_set, List.length_replicate]
    norm_num
  · exact C10_fx0a_lowest_key set_config_from_args 0 _ 5 3 (by decide) (by decide)
      (by simp only [List.getElem?_set, List.getElem?_replicate,
            List.length_set, List.length_replicate]; norm_num)
      (by simp only [List.getElem?_set, List.getElem?_replicate,
            List.length_set, List.length_replicate]; norm_num)
      (by decide) (by decide)

/-! Single-opcode dispatch lemmas. -/

/-- A fetched `getElem?` result pins the program counter inside memory. -/
theorem pc_lt_of_fetch (c : Chip8) (hi : Nat) (hmem : c.memory.length = 4096)
    (h1 : c.memory[c.pc]? = some hi) : c.pc < 4096 := by
  by_contra h
  rw [List.getElem?_eq_none (by omega)] at h1
  exact Option.noConfusion h1

/-- Dispatch of `2NNN` with room on the stack: push the post-fetch pc
and jump. -/
theorem exec_2NNN (cfg : Config) (r : Nat) (c : Chip8) (i : Instructions)
    (htop : i.opcode / 4096 % 16 = 2) (hsp : c.sp < c.stack.length) :
    execInstr cfg r c i =
      .ok { c with stack := c.stack.set c.sp c.pc, sp := c.sp + 1, pc := i.NNN } := by
  norm_num [execInstr, htop, hsp]

/-- Dispatch of `00EE` on a non-empty stack: pop into the pc. -/
theorem exec_00EE (cfg : Config) (r : Nat) (c : Chip8) (i : Instructions)
    (hop : i.opcode = 0x00EE)
    (hsp : c.sp ≠ 0) (v : Nat) (hv : c.stack[c.sp - 1]? = some v) :
    execInstr cfg r c i = .ok { c with pc := v, sp := c.sp - 1 } := by
  norm_num [execInstr, exec0, hop, hsp, hv]

/-! Claim C8 — call immediately followed by return. -/

/-- C8: with stack depth below 12, executing `2NNN` (call `A`) and then
the `00EE` stored at `A` brings the program counter to the call site
plus 2 (the post-fetch pc pushed by the call) and restores the original
stack depth. -/
theorem C8_call_then_ret (cfg : Config) (rands : Nat → Nat) (c : Chip8) (A : Nat)
    (hmem : c.memory.length = 4096) (hstack : c.stack.length = 12)
    (hsp : c.sp < 12) (hA : A < 4096)
    (h1 : c.memory[c.pc]? = some (0x20 + A / 256))
    (h2 : c.memory[c.pc + 1]? = some (A % 256))
    (h3 : c.memory[A]? = some 0x00)
    (h4 : c.memory[A + 1]? = some 0xEE) :
    ∃ d, stepsN cfg rands 2 c = .ok d ∧ d.pc = c.pc + 2 ∧ d.sp = c.sp := by
  have hpc : c.pc < 4096 := pc_lt_of_fetch c _ hmem h1
  have htop2 : (decode (0x20 + A / 256) (A % 256)).opcode / 4096 % 16 = 2 := by
    simp only [decode_opcode]; omega
  have hNNN : (decode (0x20 + A / 256) (A % 256)).NNN = A := by
    simp only [decode]; omega
  have s1 : emulate_instructions cfg (rands 1) c =
      .ok { afterFetch c (0x20 + A / 256) (A % 256) with
            stack := c.stack.set c.sp ((c.pc + 2) % 65536)
            sp := c.sp + 1
            pc := A } := by
    rw [emulate_eq_of_fetch _ _ _ _ _ h1 h2,
      exec_2NNN _ _ _ _ htop2 (by simp only [afterFetch]; omega), hNNN]
    rfl
  have s2 : emulate_instructions cfg (rands 0)
      { afterFetch c (0x20 + A / 256) (A % 256) with
        stack := c.stack.set c.sp ((c.pc + 2) % 65536)
        sp := c.sp + 1
        pc := A } =
      .ok { afterFetch
              { afterFetch c (0x20 + A / 256) (A % 256) with
                stack := c.stack.set c.sp ((c.pc + 2) % 65536)
                sp := c.sp + 1
                pc := A } 0x00 0xEE with
            pc := (c.pc + 2) % 65536
            sp := c.sp } := by
    rw [emulate_eq_of_fetch _ _ _ 0x00 0xEE h3 h4,
      exec_00EE _ _ _ _ (by norm_num [decode])
        (Nat.succ_ne_zero c.sp) ((c.pc + 2) % 65536)
        (List.getElem?_set_self (show c.sp < c.stack.length by omega))]
    rfl
  have s12 : stepsN cfg rands 2 c =
      .ok { afterFetch
              { afterFetch c (0x20 + A / 256) (A % 256) with
                stack := c.stack.set c.sp ((c.pc + 2) % 65536)
                sp := c.sp + 1
                pc := A } 0x00 0xEE with
            pc := (c.pc + 2) % 65536
            sp := c.sp } := by
    simp only [stepsN]
    rw [s1]
    simp only [bind, Except.bind]
    rw [s2]
  exact ⟨_, s12, by show (c.pc + 2) % 65536 = c.pc + 2; omega, rfl⟩

/-- C8 (witness): calling address `0x300` from `0x200` and returning. -/
theorem C8_call_then_ret_witness :
    (let c : Chip8 :=
      { zeroChip8 with
        memory := ((((List.replicate 4096 0).set 0x200 0x23).set 0x201 0x00).set
                     0x300 0x00).set 0x301 0xEE
        pc := 0x200
        state := .RUNNING }
    c.memory.length = 4096 ∧ c.stack.length = 12 ∧ c.sp < 12 ∧ (0x300 : Nat) < 4096 ∧
    c.memory[c.pc]? = some (0x20 + 0x300 / 256) ∧
    c.memory[c.pc + 1]? = some (0x300 % 256) ∧
    c.memory[(0x300 : Nat)]? = some 0x00 ∧
    c.memory[(0x300 : Nat) + 1]? = some 0xEE ∧
    ∃ d, stepsN set_config_from_args (fun _ => 0) 2 c = .ok d ∧
      d.pc = c.pc + 2 ∧ d.sp = c.sp) := by
  have hm : ∀ (idx v : Nat),
      ((((((List.replicate 4096 0).set 0x200 0x23).set 0x201 0x00).set
        0x300 0x00).set 0x301 0xEE))[idx]? = some v →
      True := fun _ _ _ => trivial
  refine ⟨?_, by decide, by decide, by decide, ?_, ?_, ?_, ?_, ?_⟩
  · simp only [List.length_set, List.length_replicate]
  · simp only [List.getElem?_set, List.getElem?_replicate,
      List.length_set, List.length_replicate]
    norm_num
  · simp only [List.getElem?_set, List.getElem?_replicate,
      List.length_set, List.length_replicate]
    norm_num
  · simp only [List.getElem?_set, List.getElem?_replicate,
      List.length_set, List.length_replicate]
    norm_num
  · simp only [List.getElem?_set, List.getElem?_replicate,
      List.length_set, List.length_replicate]
    norm_num
  · exact C8_call_then_ret set_config_from_args (fun _ => 0) _ 0x300
      (by simp only [List.length_set, List.length_replicate]) (by decide)
      (by decide) (by decide)
      (by simp only [List.getElem?_set, List.getElem?_replicate,
            List.length_set, List.length_replicate]; norm_num)
      (by simp only [List.getElem?_set, List.getElem?_replicate,
            List.length_set, List.length_replicate]; norm_num)
      (by simp only [List.getElem?_set, List.getElem?_replicate,
            List.length_set, List.length_replicate]; norm_num)
      (by simp only [List.getElem?_set, List.getElem?_replicate,
            List.length_set, List.length_replicate]; norm_num)

/-! Instruction-count bookkeeping: only the fetch header of
`emulate_instructions` touches `instructions_executed`. -/

theorem drawRow_ins (w sprite y : Nat) :
    ∀ fuel x c, (drawRow w sprite y fuel x c).instructions_executed =
      c.instructions_executed := by
  intro fuel
  induction fuel with
  | zero => intro x c; rfl
  | succ n ih =>
    intro x c
    simp only [drawRow]
    split_ifs <;> simp [ih]

theorem drawRows_ins (cfg : Config) (x0 : Nat) :
    ∀ fuel row y c d, drawRows cfg x0 fuel row y c = .ok d →
      d.instructions_executed = c.instructions_executed := by
  intro fuel
  induction fuel with
  | zero => intro row y c d h; cases h; rfl
  | succ n ih =>
    intro row y c d h
    simp only [drawRows, memRead, bind, Except.bind] at h
    split at h
    · cases h
    · split at h
      · cases h
        exact drawRow_ins _ _ _ _ _ _
      · rw [ih _ _ _ _ h]
        exact drawRow_ins _ _ _ _ _ _

theorem execDXYN_ins (cfg : Config) (c : Chip8) (X Y N : Nat) (d : Chip8)
    (h : execDXYN cfg c X Y N = .ok d) :
    d.instructions_executed = c.instructions_executed := by
  simp only [execDXYN] at h
  have h2 := drawRows_ins _ _ _ _ _ _ _ h
  rw [h2]

theorem exec0_ins (c : Chip8) (i : Instructions) (d : Chip8)
    (h : exec0 c i = .ok d) :
    d.instructions_executed = c.instructions_executed := by
  simp only [exec0] at h
  by_cases h0 : i.opcode = 0x00E0
  · rw [if_pos h0] at h; cases h; rfl
  rw [if_neg h0] at h
  by_cases h1 : i.opcode = 0x00EE
  · rw [if_pos h1] at h
    by_cases h2 : c.sp = 0
    · rw [if_pos h2] at h; cases h
    · rw [if_neg h2] at h
      cases hv : c.stack[c.sp - 1]? <;> rw [hv] at h
      · cases h
      · cases h; rfl
  · rw [if_neg h1] at h; cases h; rfl

theorem execE_ins (c : Chip8) (i : Instructions) (d : Chip8)
    (h : execE c i = .ok d) :
    d.instructions_executed = c.instructions_executed := by
  simp only [execE] at h
  by_cases h0 : i.NN = 0x9E
  · rw [if_pos h0] at h
    by_cases hk : c.keypad.getD (c.V.getD i.X 0) false = true
    · rw [if_pos hk] at h; cases h; rfl
    · rw [if_neg hk] at h; cases h; rfl
  rw [if_neg h0] at h
  by_cases h1 : i.NN = 0xA1
  · rw [if_pos h1] at h
    by_cases hk : (!c.keypad.getD (c.V.getD i.X 0) false) = true
    · rw [if_pos hk] at h; cases h; rfl
    · rw [if_neg hk] at h; cases h; rfl
  · rw [if_neg h1] at h; cases h; rfl

theorem execF_ins (c : Chip8) (i : Instructions) (d : Chip8)
    (h : execF c i = .ok d) :
    d.instructions_executed = c.instructions_executed := by
  simp only [execF, bind, Except.bind] at h
  by_cases h0 : i.NN = 0x0A
  · rw [if_pos h0] at h
    cases hs : scanKeys c.keypad 16 0 <;> rw [hs] at h <;> (cases h; rfl)
  rw [if_neg h0] at h
  by_cases h1 : i.NN = 0x1E
  · rw [if_pos h1] at h; cases h; rfl
  rw [if_neg h1] at h
  by_cases h2 : i.NN = 0x07
  · rw [if_pos h2] at h; cases h; rfl
  rw [if_neg h2] at h
  by_cases h3 : i.NN = 0x15
  · rw [if_pos h3] at h; cases h; rfl
  rw [if_neg h3] at h
  by_cases h4 : i.NN = 0x18
  · rw [if_pos h4] at h; cases h; rfl
  rw [if_neg h4] at h
  by_cases h5 : i.NN = 0x29
  · rw [if_pos h5] at h; cases h; rfl
  rw [if_neg h5] at h
  by_cases h6 : i.NN = 0x33
  · rw [if_pos h6] at h
    cases w2 : memWrite c.memory (c.I + 2) (c.V.getD i.X 0 % 10) with
    | error e => rw [w2] at h; cases h
    | ok m2 =>
      simp only [w2] at h
      cases w1 : memWrite m2 (c.I + 1) (c.V.getD i.X 0 / 10 % 10) with
      | error e => rw [w1] at h; cases h
      | ok m1 =>
        simp only [w1] at h
        cases w0 : memWrite m1 c.I (c.V.getD i.X 0 / 10 / 10) with
        | error e => rw [w0] at h; cases h
        | ok m0 => simp only [w0] at h; cases h; rfl
  rw [if_neg h6] at h
  by_cases h7 : i.NN = 0x55
  · rw [if_pos h7] at h
    cases hs : storeRegs c.V c.I (i.X + 1) 0 c.memory <;> rw [hs] at h
    · cases h
    · cases h; rfl
  rw [if_neg h7] at h
  by_cases h8 : i.NN = 0x65
  · rw [if_pos h8] at h
    cases hs : loadRegs c.memory c.I (i.X + 1) 0 c.V <;> rw [hs] at h
    · cases h
    · cases h; rfl
  · rw [if_neg h8] at h; cases h; rfl

theorem exec8_ins (c : Chip8) (i : Instructions) (d : Chip8)
    (h : exec8 c i = .ok d) :
    d.instructions_executed = c.instructions_executed := by
  simp only [exec8] at h
  by_cases h0 : i.N = 0
  · rw [if_pos h0] at h; cases h; rfl
  rw [if_neg h0] at h
  by_cases h1 : i.N = 1
  · rw [if_pos h1] at h; cases h; rfl
  rw [if_neg h1] at h
  by_cases h2 : i.N = 2
  · rw [if_pos h2] at h; cases h; rfl
  rw [if_neg h2] at h
  by_cases h3 : i.N = 3
  · rw [if_pos h3] at h; cases h; rfl
  rw [if_neg h3] at h
  by_cases h4 : i.N = 4
  · rw [if_pos h4] at h; cases h; rfl
  rw [if_neg h4] at h
  by_cases h5 : i.N = 5
  · rw [if_pos h5] at h; cases h; rfl
  rw [if_neg h5] at h
  by_cases h6 : i.N = 6
  · rw [if_pos h6] at h; cases h; rfl
  rw [if_neg h6] at h
  by_cases h7 : i.N = 7
  · rw [if_pos h7] at h; cases h; rfl
  rw [if_neg h7] at h
  by_cases hE : i.N = 14
  · rw [if_pos hE] at h; cases h; rfl
  rw [if_neg hE] at h
  cases h; rfl

theorem execInstr_ins (cfg : Config) (r : Nat) (c : Chip8) (i : Instructions)
    (d : Chip8) (h : execInstr cfg r c i = .ok d) :
    d.instructions_executed = c.instructions_executed := by
  simp only [execInstr] at h
  by_cases t0 : i.opcode / 2 ^ 12 % 16 = 0x0
  · rw [if_pos t0] at h; exact exec0_ins _ _ _ h
  rw [if_neg t0] at h
  by_cases t1 : i.opcode / 2 ^ 12 % 16 = 0x1
  · rw [if_pos t1] at h; cases h; rfl
  rw [if_neg t1] at h
  by_cases t2 : i.opcode / 2 ^ 12 % 16 = 0x2
  · rw [if_pos t2] at h
    by_cases hsp : c.sp < c.stack.length
    · rw [if_pos hsp] at h; cases h; rfl
    · rw [if_neg hsp] at h; cases h
  rw [if_neg t2] at h
  by_cases t3 : i.opcode / 2 ^ 12 % 16 = 0x3
  · rw [if_pos t3] at h
    by_cases hc : c.V.getD i.X 0 = i.NN
    · rw [if_pos hc] at h; cases h; rfl
    · rw [if_neg hc] at h; cases h; rfl
  rw [if_neg t3] at h
  by_cases t4 : i.opcode / 2 ^ 12 % 16 = 0x4
  · rw [if_pos t4] at h
    by_cases hc : c.V.getD i.X 0 ≠ i.NN
    · rw [if_pos hc] at h; cases h; rfl
    · rw [if_neg hc] at h; cases h; rfl
  rw [if_neg t4] at h
  by_cases t5 : i.opcode / 2 ^ 12 % 16 = 0x5
  · rw [if_pos t5] at h
    by_cases hn : i.N ≠ 0
    · rw [if_pos hn] at h; cases h; rfl
    · rw [if_neg hn] at h
      by_cases hc : c.V.getD i.X 0 = c.V.getD i.Y 0
      · rw [if_pos hc] at h; cases h; rfl
      · rw [if_neg hc] at h; cases h; rfl
  rw [if_neg t5] at h
  by_cases t6 : i.opcode / 2 ^ 12 % 16 = 0x6
  · rw [if_pos t6] at h; cases h; rfl
  rw [if_neg t6] at h
  by_cases t7 : i.opcode / 2 ^ 12 % 16 = 0x7
  · rw [if_pos t7] at h; cases h; rfl
  rw [if_neg t7] at h
  by_cases t8 : i.opcode / 2 ^ 12 % 16 = 0x8
  · rw [if_pos t8] at h; exact exec8_ins _ _ _ h
  rw [if_neg t8] at h
  by_cases t9 : i.opcode / 2 ^ 12 % 16 = 0x9
  · rw [if_pos t9] at h
    by_cases hn : i.N ≠ 0
    · rw [if_pos hn] at h; cases h; rfl
    · rw [if_neg hn] at h
      by_cases hc : c.V.getD i.X 0 ≠ c.V.getD i.Y 0
      · rw [if_pos hc] at h; cases h; rfl
      · rw [if_neg hc] at h; cases h; rfl
  rw [if_neg t9] at h
  by_cases tA : i.opcode / 2 ^ 12 % 16 = 0xA
  · rw [if_pos tA] at h; cases h; rfl
  rw [if_neg tA] at h
  by_cases tB : i.opcode / 2 ^ 12 % 16 = 0xB
  · rw [if_pos tB] at h; cases h; rfl
  rw [if_neg tB] at h
  by_cases tC : i.opcode / 2 ^ 12 % 16 = 0xC
  · rw [if_pos tC] at h; cases h; rfl
  rw [if_neg tC] at h
  by_cases tD : i.opcode / 2 ^ 12 % 16 = 0xD
  · rw [if_pos tD] at h; exact execDXYN_ins _ _ _ _ _ _ h
  rw [if_neg tD] at h
  by_cases tE : i.opcode / 2 ^ 12 % 16 = 0xE
  · rw [if_pos tE] at h; exact execE_ins _ _ _ h
  rw [if_neg tE] at h
  by_cases tF : i.opcode / 2 ^ 12 % 16 = 0xF
  · rw [if_pos tF] at h; exact execF_ins _ _ _ h
  · rw [if_neg tF] at h; cases h; rfl

theorem emulate_ins (cfg : Config) (r : Nat) (c : Chip8) (d : Chip8)
    (h : emulate_instructions cfg r c = .ok d) :
    d.instructions_executed = (c.instructions_executed + 1) % 4294967296 := by
  simp only [emulate_instructions, memRead, bind, Except.bind] at h
  repeat' split at h
  all_goals first
    | cases h
    | (rw [execInstr_ins _ _ _ _ _ h]; rfl)

theorem stepsN_ins (cfg : Config) (rands : Nat → Nat) :
    ∀ n c d, stepsN cfg rands n c = .ok d →
      c.instructions_executed < 4294967296 →
      d.instructions_executed =
        (c.instructions_executed + n) % 4294967296 := by
  intro n
  induction n with
  | zero =>
    intro c d h hlt
    cases h
    omega
  | succ n ih =>
    intro c d h hlt
    simp only [stepsN] at h
    cases hm : emulate_instructions cfg (rands n) c with
    | error e => rw [hm] at h; cases h
    | ok mid =>
      rw [hm] at h
      simp only [bind, Except.bind] at h
      have hmid := emulate_ins _ _ _ _ hm
      have := ih mid d h (by omega)
      omega

theorem decrement_timers_debug (c : Chip8) :
    (decrement_timers c).debug_mode = c.debug_mode := by
  simp only [decrement_timers]
  split_ifs <;> rfl

theorem decrement_timers_ins (c : Chip8) :
    (decrement_timers c).instructions_executed = c.instructions_executed := by
  simp only [decrement_timers]
  split_ifs <;> rfl

/-! Claim C3 — per-tick scheduling of instructions and timers. -/

/-- C3: a RUNNING, non-debug frame of the main loop decrements both
timers exactly once (each going down by 1 when positive and staying at
0 when 0) and then executes exactly `clock_rate / 60` instruction steps
(11 at the default clock rate 700): whenever the frame completes, the
executed-instruction counter has advanced by exactly `clock_rate / 60`. -/
theorem C3_tick_budget_and_timers (cfg : Config) (rands : Nat → Nat) (c : Chip8)
    (h1 : c.state = .RUNNING) (h2 : c.debug_mode = false)
    (hins : c.instructions_executed < 4294967296) :
    machine_frame cfg rands c =
      stepsN cfg rands (cfg.clock_rate / 60) (decrement_timers c) ∧
    (decrement_timers c).delay_timer =
      (if 0 < c.delay_timer then c.delay_timer - 1 else 0) ∧
    (decrement_timers c).sound_timer =
      (if 0 < c.sound_timer then c.sound_timer - 1 else 0) ∧
    set_config_from_args.clock_rate / 60 = 11 ∧
    (∀ d, machine_frame cfg rands c = .ok d →
      d.instructions_executed =
        (c.instructions_executed + cfg.clock_rate / 60) % 4294967296) := by
  have hframe : machine_frame cfg rands c =
      stepsN cfg rands (cfg.clock_rate / 60) (decrement_timers c) := by
    simp [machine_frame, h1, decrement_timers_debug, h2]
  refine ⟨hframe, ?_, ?_, by decide, ?_⟩
  · simp only [decrement_timers]
    split_ifs <;> simp_all
  · simp only [decrement_timers]
    split_ifs <;> simp_all
  · intro d hd
    rw [hframe] at hd
    have := stepsN_ins cfg rands _ _ _ hd
      (by rw [decrement_timers_ins]; omega)
    rw [this, decrement_timers_ins]

/-- C3 (witness): the theorem applied to a RUNNING machine with
`delay = 5`, `sound = 0`. -/
theorem C3_tick_budget_and_timers_witness :
    (let c : Chip8 :=
      { zeroChip8 with state := .RUNNING, delay_timer := 5 }
    c.state = .RUNNING ∧ c.debug_mode = false ∧
    c.instructions_executed < 4294967296 ∧
    (machine_frame set_config_from_args (fun _ => 0) c =
      stepsN set_config_from_args (fun _ => 0)
        (set_config_from_args.clock_rate / 60) (decrement_timers c) ∧
    (decrement_timers c).delay_timer =
      (if 0 < c.delay_timer then c.delay_timer - 1 else 0) ∧
    (decrement_timers c).sound_timer =
      (if 0 < c.sound_timer then c.sound_timer - 1 else 0) ∧
    set_config_from_args.clock_rate / 60 = 11 ∧
    (∀ d, machine_frame set_config_from_args (fun _ => 0) c = .ok d →
      d.instructions_executed =
        (c.instructions_executed + set_config_from_args.clock_rate / 60) %
          4294967296))) :=
  ⟨rfl, rfl, by decide,
    C3_tick_budget_and_timers set_config_from_args (fun _ => 0) _ rfl rfl (by decide)⟩

/-! Claim C9 — the I-indexed opcodes perform no bounds check. -/

/-- Running the shared ROM prefix `60FF AFFF F01E` raises `I` to
`0xFFF + 0xFF = 4350`, past the 4096-byte memory. -/
theorem c9_run (cfg : Config) (c0 : Chip8)
    (hpc : c0.pc = 512) (hV : c0.V = List.replicate 16 0)
    (hm0 : c0.memory[(512 : Nat)]? = some 0x60) (hm1 : c0.memory[(513 : Nat)]? = some 0xFF)
    (hm2 : c0.memory[(514 : Nat)]? = some 0xAF) (hm3 : c0.memory[(515 : Nat)]? = some 0xFF)
    (hm4 : c0.memory[(516 : Nat)]? = some 0xF0) (hm5 : c0.memory[(517 : Nat)]? = some 0x1E) :
    stepsN cfg (fun _ => 0) 3 c0 =
      .ok { afterFetch
              { afterFetch
                  { afterFetch c0 0x60 0xFF with
                    V := (List.replicate 16 0).set 0 0xFF, pc := 514 }
                  0xAF 0xFF with I := 0xFFF, pc := 516 }
              0xF0 0x1E with I := 4350, pc := 518 } := by
  have h1 : c0.memory[c0.pc]? = some 0x60 := by rw [hpc]; exact hm0
  have h2 : c0.memory[c0.pc + 1]? = some 0xFF := by rw [hpc]; exact hm1
  have s1 : emulate_instructions cfg 0 c0 =
      .ok { afterFetch c0 0x60 0xFF with
            V := (List.replicate 16 0).set 0 0xFF, pc := 514 } := by
    rw [emulate_eq_of_fetch _ _ _ _ _ h1 h2]
    norm_num [execInstr, decode, afterFetch, hpc, hV]
  have s2 : emulate_instructions cfg 0
      { afterFetch c0 0x60 0xFF with
        V := (List.replicate 16 0).set 0 0xFF, pc := 514 } =
      .ok { afterFetch
              { afterFetch c0 0x60 0xFF with
                V := (List.replicate 16 0).set 0 0xFF, pc := 514 }
              0xAF 0xFF with I := 0xFFF, pc := 516 } := by
    rw [emulate_eq_of_fetch _ _ _ 0xAF 0xFF hm2 hm3]
    norm_num [execInstr, decode, afterFetch]
  have s3 : emulate_instructions cfg 0
      { afterFetch
          { afterFetch c0 0x60 0xFF with
            V := (List.replicate 16 0).set 0 0xFF, pc := 514 }
          0xAF 0xFF with I := 0xFFF, pc := 516 } =
      .ok { afterFetch
              { afterFetch
                  { afterFetch c0 0x60 0xFF with
                    V := (List.replicate 16 0).set 0 0xFF, pc := 514 }
                  0xAF 0xFF with I := 0xFFF, pc := 516 }
              0xF0 0x1E with I := 4350, pc := 518 } := by
    rw [emulate_eq_of_fetch _ _ _ 0xF0 0x1E hm4 hm5]
    norm_num [execInstr, execF, decode, afterFetch]
  simp only [stepsN]
  rw [s1]
  simp only [bind, Except.bind]
  rw [s2]
  simp only [bind, Except.bind]
  rw [s3]

/-- Peeling the last step off a constant-rand `stepsN` run. -/
theorem stepsN_tail (cfg : Config) (r : Nat) :
    ∀ n c, stepsN cfg (fun _ => r) (n + 1) c =
      stepsN cfg (fun _ => r) n c >>= emulate_instructions cfg r := by
  intro n
  induction n with
  | zero =>
    intro c
    simp only [stepsN, bind, Except.bind]
    cases emulate_instructions cfg r c <;> rfl
  | succ n ih =>
    intro c
    show emulate_instructions cfg r c >>= stepsN cfg (fun _ => r) (n + 1) = _
    cases he : emulate_instructions cfg r c with
    | error e' =>
      simp only [stepsN, he, bind, Except.bind]
    | ok m =>
      simp only [stepsN, he, bind, Except.bind]
      have := ih m
      simp only [stepsN, bind, Except.bind] at this
      exact this

/-- The machine produced by `init_chip8` + `loadROM` for an 8-byte ROM. -/
theorem boot8_eq (bytes : List Nat) (h8 : bytes.length = 8) :
    boot bytes = { init_chip8 zeroChip8 with
      memory := (init_chip8 zeroChip8).memory.take entry_point ++ bytes
                  ++ List.replicate (4096 - entry_point - bytes.length) 0
      rom := "test"
      state := .RUNNING } := by
  have hguard : ¬ bytes.length > 4096 - entry_point := by
    simp only [entry_point]; omega
  unfold boot loadROM
  rw [if_neg hguard]

/-- The reset memory image has exactly 4096 bytes. -/
theorem init_mem_len : (init_chip8 zeroChip8).memory.length = 4096 := by
  simp only [init_chip8, List.length_append, List.length_replicate]
  norm_num [font]

/-- A booted machine keeps the 4096-byte memory size. -/
theorem boot8_len (bytes : List Nat) (h8 : bytes.length = 8) :
    (boot bytes).memory.length = 4096 := by
  rw [boot8_eq bytes h8]
  show ((init_chip8 zeroChip8).memory.take entry_point ++ bytes
    ++ List.replicate (4096 - entry_point - bytes.length) 0).length = 4096
  rw [List.length_append, List.length_append, List.length_take,
    List.length_replicate, init_mem_len, h8]
  simp only [entry_point]
  omega

/-- Program bytes of a freshly booted 8-byte ROM sit at `0x200 + j`. -/
theorem boot8_mem (bytes : List Nat) (h8 : bytes.length = 8) (j : Nat) (hj : j < 8) :
    (boot bytes).memory[512 + j]? = bytes[j]? := by
  rw [boot8_eq bytes h8]
  show ((init_chip8 zeroChip8).memory.take entry_point ++ bytes
    ++ List.replicate (4096 - entry_point - bytes.length) 0)[512 + j]? = bytes[j]?
  have htake : ((init_chip8 zeroChip8).memory.take entry_point).length = 512 := by
    rw [List.length_take, init_mem_len]
    simp only [entry_point]
    omega
  rw [List.getElem?_append_left
      (by rw [List.length_append, htake, h8]; omega),
    List.getElem?_append_right (by rw [htake]; omega)]
  have hidx : 512 + j - ((init_chip8 zeroChip8).memory.take entry_point).length = j := by
    rw [htake]; omega
  rw [hidx]

/-- With `I = 4350`, `FX33` attempts the out-of-range write `memory[I+2]`. -/
theorem fx33_fault (cfg : Config) (r : Nat) (m : Chip8)
    (hI : m.I = 4350) (hlen : m.memory.length = 4096)
    (h1 : m.memory[m.pc]? = some 0xF0) (h2 : m.memory[m.pc + 1]? = some 0x33) :
    emulate_instructions cfg r m = .error (.oobMemWrite 4352) := by
  rw [emulate_eq_of_fetch _ _ _ _ _ h1 h2]
  norm_num [execInstr, execF, decode, afterFetch, bind, Except.bind, memWrite,
    hI, hlen]

/-- With `I = 4350`, `FX55` (X=0) attempts the out-of-range write `memory[I]`. -/
theorem fx55_fault (cfg : Config) (r : Nat) (m : Chip8)
    (hI : m.I = 4350) (hlen : m.memory.length = 4096)
    (h1 : m.memory[m.pc]? = some 0xF0) (h2 : m.memory[m.pc + 1]? = some 0x55) :
    emulate_instructions cfg r m = .error (.oobMemWrite 4350) := by
  rw [emulate_eq_of_fetch _ _ _ _ _ h1 h2]
  norm_num [execInstr, execF, decode, afterFetch, bind, Except.bind, memWrite,
    storeRegs, hI, hlen]

/-- With `I = 4350`, `FX65` (X=0) attempts the out-of-range read `memory[I]`. -/
theorem fx65_fault (cfg : Config) (r : Nat) (m : Chip8)
    (hI : m.I = 4350) (hlen : m.memory.length = 4096)
    (h1 : m.memory[m.pc]? = some 0xF0) (h2 : m.memory[m.pc + 1]? = some 0x65) :
    emulate_instructions cfg r m = .error (.oobMemRead 4350) := by
  have hnone : m.memory[(4350 : Nat)]? = none :=
    List.getElem?_eq_none (by omega)
  rw [emulate_eq_of_fetch _ _ _ _ _ h1 h2]
  norm_num [execInstr, execF, decode, afterFetch, bind, Except.bind, memRead,
    loadRegs, hI, hnone]

/-- With `I = 4350`, `DXYN` attempts the out-of-range sprite read `memory[I]`. -/
theorem dxyn_fault (cfg : Config) (r : Nat) (m : Chip8)
    (hI : m.I = 4350) (hlen : m.memory.length = 4096)
    (h1 : m.memory[m.pc]? = some 0xD0) (h2 : m.memory[m.pc + 1]? = some 0x01) :
    emulate_instructions cfg r m = .error (.oobMemRead 4350) := by
  have hnone : m.memory[(4350 : Nat)]? = none :=
    List.getElem?_eq_none (by omega)
  rw [emulate_eq_of_fetch _ _ _ _ _ h1 h2]
  norm_num [execInstr, execDXYN, drawRows, decode, afterFetch, bind, Except.bind,
    memRead, hI, hnone]

/-- C9: none of the I-indexed opcodes checks `I` against the memory
bound: from the freshly booted machine, the ROM `60FF AFFF F01E` drives
`I` to 4350 (past `0xFFF`), after which `F033` faults writing
`memory[I+2]`, `F055` faults writing `memory[I]`, `F065` faults reading
`memory[I]`, and `D001` faults reading the sprite row at `memory[I]` —
all out-of-range branches of the total embedding are reachable. -/
theorem C9_unchecked_I_indexing :
    ((stepsN set_config_from_args (fun _ => 0) 3 (boot rom_fx33)).map (fun d => d.I)
        = .ok 4350 ∧ 4096 ≤ 4350) ∧
    stepsN set_config_from_args (fun _ => 0) 4 (boot rom_fx33)
      = .error (.oobMemWrite 4352) ∧
    stepsN set_config_from_args (fun _ => 0) 4 (boot rom_fx55)
      = .error (.oobMemWrite 4350) ∧
    stepsN set_config_from_args (fun _ => 0) 4 (boot rom_fx65)
      = .error (.oobMemRead 4350) ∧
    stepsN set_config_from_args (fun _ => 0) 4 (boot rom_dxyn)
      = .error (.oobMemRead 4350) := by
  have run33 := c9_run set_config_from_args (boot rom_fx33) rfl rfl
    (boot8_mem rom_fx33 rfl 0 (by omega)) (boot8_mem rom_fx33 rfl 1 (by omega))
    (boot8_mem rom_fx33 rfl 2 (by omega)) (boot8_mem rom_fx33 rfl 3 (by omega))
    (boot8_mem rom_fx33 rfl 4 (by omega)) (boot8_mem rom_fx33 rfl 5 (by omega))
  have run55 := c9_run set_config_from_args (boot rom_fx55) rfl rfl
    (boot8_mem rom_fx55 rfl 0 (by omega)) (boot8_mem rom_fx55 rfl 1 (by omega))
    (boot8_mem rom_fx55 rfl 2 (by omega)) (boot8_mem rom_fx55 rfl 3 (by omega))
    (boot8_mem rom_fx55 rfl 4 (by omega)) (boot8_mem rom_fx55 rfl 5 (by omega))
  have run65 := c9_run set_config_from_args (boot rom_fx65) rfl rfl
    (boot8_mem rom_fx65 rfl 0 (by omega)) (boot8_mem rom_fx65 rfl 1 (by omega))
    (boot8_mem rom_fx65 rfl 2 (by omega)) (boot8_mem rom_fx65 rfl 3 (by omega))
    (boot8_mem rom_fx65 rfl 4 (by omega)) (boot8_mem rom_fx65 rfl 5 (by omega))
  have runD := c9_run set_config_from_args (boot rom_dxyn) rfl rfl
    (boot8_mem rom_dxyn rfl 0 (by omega)) (boot8_mem rom_dxyn rfl 1 (by omega))
    (boot8_mem rom_dxyn rfl 2 (by omega)) (boot8_mem rom_dxyn rfl 3 (by omega))
    (boot8_mem rom_dxyn rfl 4 (by omega)) (boot8_mem rom_dxyn rfl 5 (by omega))
  refine ⟨⟨by rw [run33]; rfl, by omega⟩, ?_, ?_, ?_, ?_⟩
  · rw [stepsN_tail set_config_from_args 0 3 (boot rom_fx33), run33]
    simp only [bind, Except.bind]
    exact fx33_fault set_config_from_args 0 _ rfl (boot8_len rom_fx33 rfl)
      (boot8_mem rom_fx33 rfl 6 (by omega)) (boot8_mem rom_fx33 rfl 7 (by omega))
  · rw [stepsN_tail set_config_from_args 0 3 (boot rom_fx55), run55]
    simp only [bind, Except.bind]
    exact fx55_fault set_config_from_args 0 _ rfl (boot8_len rom_fx55 rfl)
      (boot8_mem rom_fx55 rfl 6 (by omega)) (boot8_mem rom_fx55 rfl 7 (by omega))
  · rw [stepsN_tail set_config_from_args 0 3 (boot rom_fx65), run65]
    simp only [bind, Except.bind]
    exact fx65_fault set_config_from_args 0 _ rfl (boot8_len rom_fx65 rfl)
      (boot8_mem rom_fx65 rfl 6 (by omega)) (boot8_mem rom_fx65 rfl 7 (by omega))
  · rw [stepsN_tail set_config_from_args 0 3 (boot rom_dxyn), runD]
    simp only [bind, Except.bind]
    exact dxyn_fault set_config_from_args 0 _ rfl (boot8_len rom_dxyn rfl)
      (boot8_mem rom_dxyn rfl 6 (by omega)) (boot8_mem rom_dxyn rfl 7 (by omega))

theorem getD_set_selfY {α : Type} (l : List α) (i : Nat) (v d : α)
    (h : i < l.length) : (l.set i v).getD i d = v := by
  simp [List.getD_eq_getElem?_getD, List.getElem?_set_self h]

theorem getD_set_neY {α : Type} (l : List α) (i j : Nat) (v d : α)
    (h : i ≠ j) : (l.set i v).getD j d = l.getD j d := by
  simp [List.getD_eq_getElem?_getD, List.getElem?_set_ne h]

theorem drawRow_spec (w sprite y : Nat) :
    ∀ f x c, x < w →
      (∀ x', x' < w → y * w + x' < c.display.length) →
      ((drawRow w sprite y f x c).display.length = c.display.length ∧
       (drawRow w sprite y f x c).memory = c.memory ∧
       (drawRow w sprite y f x c).pc = c.pc ∧
       (drawRow w sprite y f x c).I = c.I) ∧
      (drawRow w sprite y f x c).V =
        (if ∃ t, t < min f (w - x) ∧ (sprite / 2 ^ (f - 1 - t)) % 2 = 1 ∧
              c.display.getD (y * w + (x + t)) false = true
         then c.V.set 15 1 else c.V) ∧
      (∀ idx, (drawRow w sprite y f x c).display.getD idx false =
        xor (c.display.getD idx false)
          (decide (∃ t, t < min f (w - x) ∧ idx = y * w + (x + t) ∧
            (sprite / 2 ^ (f - 1 - t)) % 2 = 1))) := by
  intro f
  induction f with
  | zero =>
    intro x c hx hb
    refine ⟨⟨rfl, rfl, rfl, rfl⟩, ?_, ?_⟩
    · have hno : ¬ ∃ t, t < min 0 (w - x) ∧ (sprite / 2 ^ (0 - 1 - t)) % 2 = 1 ∧
          c.display.getD (y * w + (x + t)) false = true := by
        rintro ⟨t, ht, -⟩
        omega
      rw [if_neg hno]
      rfl
    · intro idx
      have hno : ¬ ∃ t, t < min 0 (w - x) ∧ idx = y * w + (x + t) ∧
          (sprite / 2 ^ (0 - 1 - t)) % 2 = 1 := by
        rintro ⟨t, ht, -⟩
        omega
      simp only [hno, decide_False, Bool.xor_false]
      rfl
  | succ f ih =>
    intro x c hx hb
    have hidx0 : y * w + x < c.display.length := hb x hx
    simp only [drawRow]
    by_cases hcol :
        (decide (sprite / 2 ^ f % 2 = 1) && c.display.getD (y * w + x) false) = true
    · simp only [if_pos hcol]
      by_cases hxe : x + 1 ≥ w
      · simp only [if_pos hxe]
        have hwx : min (f + 1) (w - x) = 1 := by omega
        obtain ⟨hbit, hpix⟩ := Bool.and_eq_true_iff.mp hcol
        refine ⟨?_, ?_, ?_⟩
        · simp [List.length_set]
        · have hcond : ∃ t, t < min (f + 1) (w - x) ∧
              sprite / 2 ^ (f + 1 - 1 - t) % 2 = 1 ∧
              c.display.getD (y * w + (x + t)) false = true :=
            ⟨0, by omega, by simpa using hbit, by simpa using hpix⟩
          rw [if_pos hcond]
        · intro idx
          by_cases hidx : idx = y * w + x
          · subst hidx
            rw [getD_set_selfY _ _ _ _ hidx0]
            have hdec : (decide (∃ t, t < min (f + 1) (w - x) ∧
                y * w + x = y * w + (x + t) ∧
                sprite / 2 ^ (f + 1 - 1 - t) % 2 = 1)) = true := by
              simp only [decide_eq_true_iff]
              exact ⟨0, by omega, by omega, by simpa using hbit⟩
            rw [hdec, hbit]
          · rw [getD_set_neY _ _ _ _ _ (fun h => hidx h.symm)]
            have hdec : (decide (∃ t, t < min (f + 1) (w - x) ∧
                idx = y * w + (x + t) ∧
                sprite / 2 ^ (f + 1 - 1 - t) % 2 = 1)) = false := by
              simp only [decide_eq_false_iff_not]
              rintro ⟨t, ht, heq, -⟩
              omega
            rw [hdec]
            simp
      · simp only [if_neg hxe]
        obtain ⟨hbit, hpix⟩ := Bool.and_eq_true_iff.mp hcol
        have hxw : x + 1 < w := by omega
        obtain ⟨⟨hl, hm, hp, hI⟩, hV, hD⟩ :=
          ih (x + 1)
            { c with
              V := c.V.set 15 1
              collision_detected := true
              display := c.display.set (y * w + x)
                (xor (c.display.getD (y * w + x) false)
                  (decide (sprite / 2 ^ f % 2 = 1))) }
            hxw
            (by intro x' hx'
                simpa [List.length_set] using hb x' hx')
        refine ⟨⟨?_, hm, hp, hI⟩, ?_, ?_⟩
        · rw [hl]
          simp [List.length_set]
        · rw [hV]
          have hcond : ∃ t, t < min (f + 1) (w - x) ∧
              sprite / 2 ^ (f + 1 - 1 - t) % 2 = 1 ∧
              c.display.getD (y * w + (x + t)) false = true :=
            ⟨0, by omega, by simpa using hbit, by simpa using hpix⟩
          rw [if_pos hcond]
          split_ifs with hct
          · show (c.V.set 15 1).set 15 1 = c.V.set 15 1
            rw [List.set_set]
          · rfl
        · intro idx
          rw [hD idx]
          by_cases hidx : idx = y * w + x
          · subst hidx
            rw [getD_set_selfY _ _ _ _ hidx0]
            have htail : (decide (∃ t, t < min f (w - (x + 1)) ∧
                y * w + x = y * w + (x + 1 + t) ∧
                sprite / 2 ^ (f - 1 - t) % 2 = 1)) = false := by
              simp only [decide_eq_false_iff_not]
              rintro ⟨t, ht, heq, -⟩
              omega
            have hfull : (decide (∃ t, t < min (f + 1) (w - x) ∧
                y * w + x = y * w + (x + t) ∧
                sprite / 2 ^ (f + 1 - 1 - t) % 2 = 1)) =
                decide (sprite / 2 ^ f % 2 = 1) := by
              rw [decide_eq_decide]
              constructor
              · rintro ⟨t, ht, heq, hb2⟩
                have ht0 : t = 0 := by omega
                subst ht0
                simpa using hb2
              · intro hb2
                exact ⟨0, by omega, by omega, by simpa using hb2⟩
            rw [htail, hfull]
            simp
          · rw [getD_set_neY _ _ _ _ _ (fun h => hidx h.symm)]
            have hshift : (decide (∃ t, t < min f (w - (x + 1)) ∧
                idx = y * w + (x + 1 + t) ∧
                sprite / 2 ^ (f - 1 - t) % 2 = 1)) =
                decide (∃ t, t < min (f + 1) (w - x) ∧
                  idx = y * w + (x + t) ∧
                  sprite / 2 ^ (f + 1 - 1 - t) % 2 = 1) := by
              rw [decide_eq_decide]
              constructor
              · rintro ⟨t, ht, heq, hb2⟩
                refine ⟨t + 1, by omega, by omega, ?_⟩
                rw [show f + 1 - 1 - (t + 1) = f - 1 - t from by omega]
                exact hb2
              · rintro ⟨t, ht, heq, hb2⟩
                have ht1 : 1 ≤ t := by
                  by_contra h0
                  exact hidx (by omega)
                refine ⟨t - 1, by omega, by omega, ?_⟩
                rw [show f - 1 - (t - 1) = f + 1 - 1 - t from by omega]
                exact hb2
            rw [hshift]
    · simp only [if_neg hcol]
      have hnotand : ¬(sprite / 2 ^ f % 2 = 1 ∧
          c.display.getD (y * w + x) false = true) := by
        rintro ⟨hb2, hp2⟩
        exact hcol (Bool.and_eq_true_iff.mpr ⟨decide_eq_true hb2, hp2⟩)
      by_cases hxe : x + 1 ≥ w
      · simp only [if_pos hxe]
        refine ⟨?_, ?_, ?_⟩
        · simp [List.length_set]
        · have hno : ¬ ∃ t, t < min (f + 1) (w - x) ∧
              sprite / 2 ^ (f + 1 - 1 - t) % 2 = 1 ∧
              c.display.getD (y * w + (x + t)) false = true := by
            rintro ⟨t, ht, hb2, hp2⟩
            have ht0 : t = 0 := by omega
            subst ht0
            exact hnotand ⟨by simpa using hb2, by simpa using hp2⟩
          rw [if_neg hno]
        · intro idx
          by_cases hidx : idx = y * w + x
          · subst hidx
            rw [getD_set_selfY _ _ _ _ hidx0]
            have hdec : (decide (∃ t, t < min (f + 1) (w - x) ∧
                y * w + x = y * w + (x + t) ∧
                sprite / 2 ^ (f + 1 - 1 - t) % 2 = 1)) =
                decide (sprite / 2 ^ f % 2 = 1) := by
              rw [decide_eq_decide]
              constructor
              · rintro ⟨t, ht, heq, hb2⟩
                have ht0 : t = 0 := by omega
                subst ht0
                simpa using hb2
              · intro hb2
                exact ⟨0, by omega, by omega, by simpa using hb2⟩
            rw [hdec]
          · rw [getD_set_neY _ _ _ _ _ (fun h => hidx h.symm)]
            have hdec : (decide (∃ t, t < min (f + 1) (w - x) ∧
                idx = y * w + (x + t) ∧
                sprite / 2 ^ (f + 1 - 1 - t) % 2 = 1)) = false := by
              simp only [decide_eq_false_iff_not]
              rintro ⟨t, ht, heq, -⟩
              omega
            rw [hdec]
            simp
      · simp only [if_neg hxe]
        have hxw : x + 1 < w := by omega
        obtain ⟨⟨hl, hm, hp, hI⟩, hV, hD⟩ :=
          ih (x + 1)
            { c with
              display := c.display.set (y * w + x)
                (xor (c.display.getD (y * w + x) false)
                  (decide (sprite / 2 ^ f % 2 = 1))) }
            hxw
            (by intro x' hx'
                simpa [List.length_set] using hb x' hx')
        refine ⟨⟨?_, hm, hp, hI⟩, ?_, ?_⟩
        · rw [hl]
          simp [List.length_set]
        · rw [hV]
          have hCT : (∃ t, t < min f (w - (x + 1)) ∧
              sprite / 2 ^ (f - 1 - t) % 2 = 1 ∧
              (c.display.set (y * w + x)
                (xor (c.display.getD (y * w + x) false)
                  (decide (sprite / 2 ^ f % 2 = 1)))).getD
                (y * w + (x + 1 + t)) false = true) ↔
              (∃ t, t < min (f + 1) (w - x) ∧
              sprite / 2 ^ (f + 1 - 1 - t) % 2 = 1 ∧
              c.display.getD (y * w + (x + t)) false = true) := by
            constructor
            · rintro ⟨t, ht, hb2, hp2⟩
              rw [getD_set_neY _ _ _ _ _ (by omega)] at hp2
              refine ⟨t + 1, by omega, ?_, by
                rw [show y * w + (x + (t + 1)) = y * w + (x + 1 + t) from by omega]
                exact hp2⟩
              rw [show f + 1 - 1 - (t + 1) = f - 1 - t from by omega]
              exact hb2
            · rintro ⟨t, ht, hb2, hp2⟩
              have ht1 : 1 ≤ t := by
                by_contra h0
                have ht0 : t = 0 := by omega
                subst ht0
                exact hnotand ⟨by simpa using hb2, by simpa using hp2⟩
              refine ⟨t - 1, by omega, ?_, ?_⟩
              · rw [show f - 1 - (t - 1) = f + 1 - 1 - t from by omega]
                exact hb2
              · rw [getD_set_neY _ _ _ _ _ (by omega)]
                rw [show y * w + (x + 1 + (t - 1)) = y * w + (x + t) from by omega]
                exact hp2
          exact if_congr hCT rfl rfl
        · intro idx
          rw [hD idx]
          by_cases hidx : idx = y * w + x
          · subst hidx
            rw [getD_set_selfY _ _ _ _ hidx0]
            have htail : (decide (∃ t, t < min f (w - (x + 1)) ∧
                y * w + x = y * w + (x + 1 + t) ∧
                sprite / 2 ^ (f - 1 - t) % 2 = 1)) = false := by
              simp only [decide_eq_false_iff_not]
              rintro ⟨t, ht, heq, -⟩
              omega
            have hfull : (decide (∃ t, t < min (f + 1) (w - x) ∧
                y * w + x = y * w + (x + t) ∧
                sprite / 2 ^ (f + 1 - 1 - t) % 2 = 1)) =
                decide (sprite / 2 ^ f % 2 = 1) := by
              rw [decide_eq_decide]
              constructor
              · rintro ⟨t, ht, heq, hb2⟩
                have ht0 : t = 0 := by omega
                subst ht0
                simpa using hb2
              · intro hb2
                exact ⟨0, by omega, by omega, by simpa using hb2⟩
            rw [htail, hfull]
            simp
          · rw [getD_set_neY _ _ _ _ _ (fun h => hidx h.symm)]
            have hshift : (decide (∃ t, t < min f (w - (x + 1)) ∧
                idx = y * w + (x + 1 + t) ∧
                sprite / 2 ^ (f - 1 - t) % 2 = 1)) =
                decide (∃ t, t < min (f + 1) (w - x) ∧
                  idx = y * w + (x + t) ∧
                  sprite / 2 ^ (f + 1 - 1 - t) % 2 = 1) := by
              rw [decide_eq_decide]
              constructor
              · rintro ⟨t, ht, heq, hb2⟩
                refine ⟨t + 1, by omega, by omega, ?_⟩
                rw [show f + 1 - 1 - (t + 1) = f - 1 - t from by omega]
                exact hb2
              · rintro ⟨t, ht, heq, hb2⟩
                have ht1 : 1 ≤ t := by
                  by_contra h0
                  exact hidx (by omega)
                refine ⟨t - 1, by omega, by omega, ?_⟩
                rw [show f - 1 - (t - 1) = f + 1 - 1 - t from by omega]
                exact hb2
            rw [hshift]

theorem memRead_eq_ok (m : List Nat) (i : Nat) (h : i < m.length) :
    memRead m i = .ok (m.getD i 0) := by
  simp [memRead, List.getElem?_eq_getElem h, List.getD_eq_getElem?_getD]

theorem drawRows_spec (cfg : Config) (x0 : Nat) (hx0 : x0 < cfg.window_width) :
    ∀ fuel row y c,
      y < cfg.window_height →
      c.display.length = cfg.window_width * cfg.window_height →
      c.I + row + min fuel (cfg.window_height - y) ≤ c.memory.length →
      ∃ d, drawRows cfg x0 fuel row y c = .ok d ∧
        d.memory = c.memory ∧ d.pc = c.pc ∧ d.I = c.I ∧
        d.display.length = c.display.length ∧
        d.V = (if ∃ r, r < min fuel (cfg.window_height - y) ∧
                  ∃ t, t < min 8 (cfg.window_width - x0) ∧
                  c.memory.getD (c.I + row + r) 0 / 2 ^ (7 - t) % 2 = 1 ∧
                  c.display.getD ((y + r) * cfg.window_width + (x0 + t)) false = true
               then c.V.set 15 1 else c.V) ∧
        ∀ idx, d.display.getD idx false =
          xor (c.display.getD idx false)
            (decide (∃ r, r < min fuel (cfg.window_height - y) ∧
              ∃ t, t < min 8 (cfg.window_width - x0) ∧
              idx = (y + r) * cfg.window_width + (x0 + t) ∧
              c.memory.getD (c.I + row + r) 0 / 2 ^ (7 - t) % 2 = 1)) := by
  intro fuel
  induction fuel with
  | zero =>
    intro row y c hy hlen hmem
    refine ⟨c, rfl, rfl, rfl, rfl, rfl, ?_, ?_⟩
    · have hno : ¬ ∃ r, r < min 0 (cfg.window_height - y) ∧
          ∃ t, t < min 8 (cfg.window_width - x0) ∧
          c.memory.getD (c.I + row + r) 0 / 2 ^ (7 - t) % 2 = 1 ∧
          c.display.getD ((y + r) * cfg.window_width + (x0 + t)) false = true := by
        rintro ⟨r, hr, -⟩
        omega
      rw [if_neg hno]
    · intro idx
      have hno : (decide (∃ r, r < min 0 (cfg.window_height - y) ∧
          ∃ t, t < min 8 (cfg.window_width - x0) ∧
          idx = (y + r) * cfg.window_width + (x0 + t) ∧
          c.memory.getD (c.I + row + r) 0 / 2 ^ (7 - t) % 2 = 1)) = false := by
        simp only [decide_eq_false_iff_not]
        rintro ⟨r, hr, -⟩
        omega
      rw [hno]
      simp
  | succ fuel ih =>
    intro row y c hy hlen hmem
    have hymem : c.I + row < c.memory.length := by omega
    have hmr := memRead_eq_ok c.memory (c.I + row) hymem
    have hb : ∀ x', x' < cfg.window_width →
        y * cfg.window_width + x' < c.display.length := by
      intro x' hx'
      have h1 : (y + 1) * cfg.window_width ≤
          cfg.window_height * cfg.window_width :=
        Nat.mul_le_mul_right _ (by omega)
      have h2 : (y + 1) * cfg.window_width
          = y * cfg.window_width + cfg.window_width := by ring
      have h4 : cfg.window_width * cfg.window_height
          = cfg.window_height * cfg.window_width := by ring
      omega
    obtain ⟨⟨hl1, hm1, hp1, hI1⟩, hV1, hD1⟩ :=
      drawRow_spec cfg.window_width (c.memory.getD (c.I + row) 0) y 8 x0 c hx0 hb
    simp only [(by norm_num : (8:Nat) - 1 = 7)] at hV1 hD1
    by_cases hedge : y + 1 ≥ cfg.window_height
    · refine ⟨drawRow cfg.window_width (c.memory.getD (c.I + row) 0) y 8 x0 c,
        ?_, hm1, hp1, hI1, hl1, ?_, ?_⟩
      · simp only [drawRows, hmr, bind, Except.bind]
        rw [if_pos hedge]
      · rw [hV1]
        refine if_congr ?_ rfl rfl
        constructor
        · rintro ⟨t, ht, hb2, hp2⟩
          exact ⟨0, by omega, t, ht, by simpa using hb2, by simpa using hp2⟩
        · rintro ⟨r, hr, t, ht, hb2, hp2⟩
          have hr0 : r = 0 := by omega
          subst hr0
          exact ⟨t, ht, by simpa using hb2, by simpa using hp2⟩
      · intro idx
        rw [hD1 idx]
        have hdec : (decide (∃ t, t < min 8 (cfg.window_width - x0) ∧
            idx = y * cfg.window_width + (x0 + t) ∧
            c.memory.getD (c.I + row) 0 / 2 ^ (7 - t) % 2 = 1)) =
            decide (∃ r, r < min (fuel + 1) (cfg.window_height - y) ∧
              ∃ t, t < min 8 (cfg.window_width - x0) ∧
              idx = (y + r) * cfg.window_width + (x0 + t) ∧
              c.memory.getD (c.I + row + r) 0 / 2 ^ (7 - t) % 2 = 1) := by
          rw [decide_eq_decide]
          constructor
          · rintro ⟨t, ht, heq, hb2⟩
            exact ⟨0, by omega, t, ht, by simpa using heq, by simpa using hb2⟩
          · rintro ⟨r, hr, t, ht, heq, hb2⟩
            have hr0 : r = 0 := by omega
            subst hr0
            exact ⟨t, ht, by simpa using heq, by simpa using hb2⟩
        rw [hdec]
    · have hy1 : y + 1 < cfg.window_height := by omega
      obtain ⟨d, hd, hdm, hdp, hdI, hdl, hdV, hdD⟩ :=
        ih (row + 1) (y + 1)
          (drawRow cfg.window_width (c.memory.getD (c.I + row) 0) y 8 x0 c)
          hy1 (by rw [hl1]; exact hlen) (by rw [hm1, hI1]; omega)
      simp only [hm1, hI1] at hdV hdD
      have hrun : drawRows cfg x0 (fuel + 1) row y c = .ok d := by
        have hstep : drawRows cfg x0 (fuel + 1) row y c
            = drawRows cfg x0 fuel (row + 1) (y + 1)
              (drawRow cfg.window_width (c.memory.getD (c.I + row) 0) y 8 x0 c) := by
          simp only [drawRows, hmr, bind, Except.bind]
          rw [if_neg hedge]
        rw [hstep, hd]
      have hCT : (∃ r, r < min fuel (cfg.window_height - (y + 1)) ∧
          ∃ t, t < min 8 (cfg.window_width - x0) ∧
          c.memory.getD (c.I + (row + 1) + r) 0 / 2 ^ (7 - t) % 2 = 1 ∧
          (drawRow cfg.window_width (c.memory.getD (c.I + row) 0) y 8 x0 c).display.getD
            ((y + 1 + r) * cfg.window_width + (x0 + t)) false = true) ↔
          (∃ r, r < min fuel (cfg.window_height - (y + 1)) ∧
          ∃ t, t < min 8 (cfg.window_width - x0) ∧
          c.memory.getD (c.I + (row + 1) + r) 0 / 2 ^ (7 - t) % 2 = 1 ∧
          c.display.getD ((y + 1 + r) * cfg.window_width + (x0 + t)) false = true) := by
        have hcell : ∀ r t, t < min 8 (cfg.window_width - x0) →
            (drawRow cfg.window_width (c.memory.getD (c.I + row) 0) y 8 x0 c).display.getD
              ((y + 1 + r) * cfg.window_width + (x0 + t)) false =
            c.display.getD ((y + 1 + r) * cfg.window_width + (x0 + t)) false := by
          intro r t ht
          rw [hD1 ((y + 1 + r) * cfg.window_width + (x0 + t))]
          have hfalse : (decide (∃ t', t' < min 8 (cfg.window_width - x0) ∧
              (y + 1 + r) * cfg.window_width + (x0 + t)
                = y * cfg.window_width + (x0 + t') ∧
              c.memory.getD (c.I + row) 0 / 2 ^ (7 - t') % 2 = 1)) = false := by
            simp only [decide_eq_false_iff_not]
            rintro ⟨t', ht', heq, -⟩
            have e1 : (y + 1 + r) * cfg.window_width
                = y * cfg.window_width + cfg.window_width
                  + r * cfg.window_width := by ring
            omega
          rw [hfalse]
          simp
        constructor
        · rintro ⟨r, hr, t, ht, hb2, hp2⟩
          rw [hcell r t ht] at hp2
          exact ⟨r, hr, t, ht, hb2, hp2⟩
        · rintro ⟨r, hr, t, ht, hb2, hp2⟩
          refine ⟨r, hr, t, ht, hb2, ?_⟩
          rw [hcell r t ht]
          exact hp2
      have hdV' : d.V = if (∃ r, r < min fuel (cfg.window_height - (y + 1)) ∧
          ∃ t, t < min 8 (cfg.window_width - x0) ∧
          c.memory.getD (c.I + (row + 1) + r) 0 / 2 ^ (7 - t) % 2 = 1 ∧
          c.display.getD ((y + 1 + r) * cfg.window_width + (x0 + t)) false = true)
          then (drawRow cfg.window_width (c.memory.getD (c.I + row) 0) y 8 x0 c).V.set 15 1
          else (drawRow cfg.window_width (c.memory.getD (c.I + row) 0) y 8 x0 c).V := by
        rw [hdV]
        exact if_congr hCT rfl rfl
      rw [hV1] at hdV'
      refine ⟨d, hrun, by rw [hdm]; exact hm1, by rw [hdp]; exact hp1,
        by rw [hdI]; exact hI1, by rw [hdl]; exact hl1, ?_, ?_⟩
      · have hStoFull : (∃ r, r < min fuel (cfg.window_height - (y + 1)) ∧
            ∃ t, t < min 8 (cfg.window_width - x0) ∧
            c.memory.getD (c.I + (row + 1) + r) 0 / 2 ^ (7 - t) % 2 = 1 ∧
            c.display.getD ((y + 1 + r) * cfg.window_width + (x0 + t)) false = true) →
            (∃ r, r < min (fuel + 1) (cfg.window_height - y) ∧
            ∃ t, t < min 8 (cfg.window_width - x0) ∧
            c.memory.getD (c.I + row + r) 0 / 2 ^ (7 - t) % 2 = 1 ∧
            c.display.getD ((y + r) * cfg.window_width + (x0 + t)) false = true) := by
          rintro ⟨r, hr, t, ht, hb2, hp2⟩
          have hrb : r + 1 < min (fuel + 1) (cfg.window_height - y) := by clear hCT hdV' hdV hdD hV1 hD1; omega
          have e2 : c.I + row + (r + 1) = c.I + (row + 1) + r := by omega
          have e3 : y + (r + 1) = y + 1 + r := by omega
          refine ⟨r + 1, hrb, t, ht, ?_, ?_⟩
          · rw [e2]
            exact hb2
          · rw [e3]
            exact hp2
        have hRtoFull : (∃ t, t < min 8 (cfg.window_width - x0) ∧
            c.memory.getD (c.I + row) 0 / 2 ^ (7 - t) % 2 = 1 ∧
            c.display.getD (y * cfg.window_width + (x0 + t)) false = true) →
            (∃ r, r < min (fuel + 1) (cfg.window_height - y) ∧
            ∃ t, t < min 8 (cfg.window_width - x0) ∧
            c.memory.getD (c.I + row + r) 0 / 2 ^ (7 - t) % 2 = 1 ∧
            c.display.getD ((y + r) * cfg.window_width + (x0 + t)) false = true) := by
          rintro ⟨t, ht, hb2, hp2⟩
          have hrb : 0 < min (fuel + 1) (cfg.window_height - y) := by clear hCT hdV' hdV hdD hV1 hD1; omega
          exact ⟨0, hrb, t, ht, by simpa using hb2, by simpa using hp2⟩
        by_cases hS : (∃ r, r < min fuel (cfg.window_height - (y + 1)) ∧
            ∃ t, t < min 8 (cfg.window_width - x0) ∧
            c.memory.getD (c.I + (row + 1) + r) 0 / 2 ^ (7 - t) % 2 = 1 ∧
            c.display.getD ((y + 1 + r) * cfg.window_width + (x0 + t)) false = true)
        · rw [if_pos hS] at hdV'
          rw [hdV', if_pos (hStoFull hS)]
          by_cases hR : (∃ t, t < min 8 (cfg.window_width - x0) ∧
              c.memory.getD (c.I + row) 0 / 2 ^ (7 - t) % 2 = 1 ∧
              c.display.getD (y * cfg.window_width + (x0 + t)) false = true)
          · rw [if_pos hR, List.set_set]
          · rw [if_neg hR]
        · rw [if_neg hS] at hdV'
          rw [hdV']
          by_cases hR : (∃ t, t < min 8 (cfg.window_width - x0) ∧
              c.memory.getD (c.I + row) 0 / 2 ^ (7 - t) % 2 = 1 ∧
              c.display.getD (y * cfg.window_width + (x0 + t)) false = true)
          · rw [if_pos hR, if_pos (hRtoFull hR)]
          · rw [if_neg hR, if_neg ?_]
            rintro ⟨r, hr, t, ht, hb2, hp2⟩
            rcases Nat.eq_zero_or_pos r with hr0 | hr1
            · subst hr0
              exact hR ⟨t, ht, by simpa using hb2, by simpa using hp2⟩
            · have hrb : r - 1 < min fuel (cfg.window_height - (y + 1)) := by clear hCT hdV' hdV hdD hV1 hD1; omega
              have e2 : c.I + (row + 1) + (r - 1) = c.I + row + r := by omega
              have e3 : y + 1 + (r - 1) = y + r := by omega
              refine hS ⟨r - 1, hrb, t, ht, ?_, ?_⟩
              · rw [e2]
                exact hb2
              · rw [e3]
                exact hp2
      · intro idx
        rw [hdD idx, hD1 idx, Bool.xor_assoc]
        have hxors : xor (decide (∃ t, t < min 8 (cfg.window_width - x0) ∧
            idx = y * cfg.window_width + (x0 + t) ∧
            c.memory.getD (c.I + row) 0 / 2 ^ (7 - t) % 2 = 1))
            (decide (∃ r, r < min fuel (cfg.window_height - (y + 1)) ∧
            ∃ t, t < min 8 (cfg.window_width - x0) ∧
            idx = (y + 1 + r) * cfg.window_width + (x0 + t) ∧
            c.memory.getD (c.I + (row + 1) + r) 0 / 2 ^ (7 - t) % 2 = 1)) =
            decide (∃ r, r < min (fuel + 1) (cfg.window_height - y) ∧
            ∃ t, t < min 8 (cfg.window_width - x0) ∧
            idx = (y + r) * cfg.window_width + (x0 + t) ∧
            c.memory.getD (c.I + row + r) 0 / 2 ^ (7 - t) % 2 = 1) := by
          by_cases hRi : (∃ t, t < min 8 (cfg.window_width - x0) ∧
              idx = y * cfg.window_width + (x0 + t) ∧
              c.memory.getD (c.I + row) 0 / 2 ^ (7 - t) % 2 = 1)
          · by_cases hSi : (∃ r, r < min fuel (cfg.window_height - (y + 1)) ∧
                ∃ t, t < min 8 (cfg.window_width - x0) ∧
                idx = (y + 1 + r) * cfg.window_width + (x0 + t) ∧
                c.memory.getD (c.I + (row + 1) + r) 0 / 2 ^ (7 - t) % 2 = 1)
            · exfalso
              obtain ⟨t', ht', heq', -⟩ := hRi
              obtain ⟨r, hr, t, ht, heq, -⟩ := hSi
              have e1 : (y + 1 + r) * cfg.window_width
                  = y * cfg.window_width + cfg.window_width
                    + r * cfg.window_width := by ring
              omega
            · obtain ⟨t, ht, heq, hb2⟩ := hRi
              have hrb : 0 < min (fuel + 1) (cfg.window_height - y) := by clear hCT hdV' hdV hdD hV1 hD1; omega
              have hFi : ∃ r, r < min (fuel + 1) (cfg.window_height - y) ∧
                  ∃ t, t < min 8 (cfg.window_width - x0) ∧
                  idx = (y + r) * cfg.window_width + (x0 + t) ∧
                  c.memory.getD (c.I + row + r) 0 / 2 ^ (7 - t) % 2 = 1 :=
                ⟨0, hrb, t, ht, by simpa using heq, by simpa using hb2⟩
              rw [decide_eq_true ⟨t, ht, heq, hb2⟩, decide_eq_false hSi,
                decide_eq_true hFi]
              rfl
          · by_cases hSi : (∃ r, r < min fuel (cfg.window_height - (y + 1)) ∧
                ∃ t, t < min 8 (cfg.window_width - x0) ∧
                idx = (y + 1 + r) * cfg.window_width + (x0 + t) ∧
                c.memory.getD (c.I + (row + 1) + r) 0 / 2 ^ (7 - t) % 2 = 1)
            · obtain ⟨r, hr, t, ht, heq, hb2⟩ := hSi
              have hrb : r + 1 < min (fuel + 1) (cfg.window_height - y) := by clear hCT hdV' hdV hdD hV1 hD1; omega
              have e2 : y + (r + 1) = y + 1 + r := by omega
              have e3 : c.I + row + (r + 1) = c.I + (row + 1) + r := by omega
              have hFi : ∃ r, r < min (fuel + 1) (cfg.window_height - y) ∧
                  ∃ t, t < min 8 (cfg.window_width - x0) ∧
                  idx = (y + r) * cfg.window_width + (x0 + t) ∧
                  c.memory.getD (c.I + row + r) 0 / 2 ^ (7 - t) % 2 = 1 :=
                ⟨r + 1, hrb, t, ht, by rw [e2]; exact heq, by rw [e3]; exact hb2⟩
              rw [decide_eq_false hRi,
                decide_eq_true ⟨r, hr, t, ht, heq, hb2⟩, decide_eq_true hFi]
              rfl
            · have hFn : ¬ ∃ r, r < min (fuel + 1) (cfg.window_height - y) ∧
                  ∃ t, t < min 8 (cfg.window_width - x0) ∧
                  idx = (y + r) * cfg.window_width + (x0 + t) ∧
                  c.memory.getD (c.I + row + r) 0 / 2 ^ (7 - t) % 2 = 1 := by
                rintro ⟨r, hr, t, ht, heq, hb2⟩
                rcases Nat.eq_zero_or_pos r with hr0 | hr1
                · subst hr0
                  exact hRi ⟨t, ht, by simpa using heq, by simpa using hb2⟩
                · have hrb : r - 1 < min fuel (cfg.window_height - (y + 1)) := by clear hCT hdV' hdV hdD hV1 hD1; omega
                  have e2 : y + 1 + (r - 1) = y + r := by omega
                  have e3 : c.I + (row + 1) + (r - 1) = c.I + row + r := by omega
                  exact hSi ⟨r - 1, hrb, t, ht, by rw [e2]; exact heq,
                    by rw [e3]; exact hb2⟩
              rw [decide_eq_false hRi, decide_eq_false hSi, decide_eq_false hFn]
              rfl
        rw [hxors]

/-- C1: a DXYN draw with height N >= 1 starts at `VX mod display_width`,
`VY mod display_height` (wrapping only at the sprite origin), reads each
drawn row from `memory[I + row]`, XORs its 8 bits MSB-first into the
display while clipping at the right and bottom display edges, and ends
with `VF = 1` exactly when some set sprite bit was XORed against an
already-set display cell (`VF = 0` otherwise, having been reset before
drawing); memory, pc and I are unchanged. -/
theorem C1_dxyn_draw (cfg : Config) (c : Chip8) (X Y N : Nat)
    (hw : 0 < cfg.window_width) (hh : 0 < cfg.window_height)
    (_hN : 1 ≤ N)
    (hlen : c.display.length = cfg.window_width * cfg.window_height)
    (hmem : c.I + min N (cfg.window_height - spec_DXYN_startY cfg c Y)
      ≤ c.memory.length) :
    ∃ d, execDXYN cfg c X Y N = .ok d ∧
      d.V = c.V.set 15
        (if spec_DXYN_collision cfg c (spec_DXYN_startX cfg c X)
            (spec_DXYN_startY cfg c Y) N then 1 else 0) ∧
      (∀ idx, d.display.getD idx false =
        xor (c.display.getD idx false)
          (decide (spec_DXYN_flips cfg c (spec_DXYN_startX cfg c X)
            (spec_DXYN_startY cfg c Y) N idx))) ∧
      d.memory = c.memory ∧ d.pc = c.pc ∧ d.I = c.I ∧
      d.display.length = c.display.length := by
  obtain ⟨d, hd, hdm, hdp, hdI, hdl, hdV, hdD⟩ :=
    drawRows_spec cfg (c.V.getD X 0 % cfg.window_width) (Nat.mod_lt _ hw) N 0
      (c.V.getD Y 0 % cfg.window_height)
      { c with sprite_drawn_this_frame := true
               last_sprite_x := c.V.getD X 0 % cfg.window_width
               last_sprite_y := c.V.getD Y 0 % cfg.window_height
               last_sprite_height := N
               last_sprite_address := c.I
               V := c.V.set 15 0 }
      (Nat.mod_lt _ hh) hlen
      (by simpa [spec_DXYN_startY] using hmem)
  refine ⟨d, hd, ?_, ?_, hdm, hdp, hdI, hdl⟩
  · have hdV2 : d.V = if spec_DXYN_collision cfg c (spec_DXYN_startX cfg c X)
        (spec_DXYN_startY cfg c Y) N
        then (c.V.set 15 0).set 15 1 else c.V.set 15 0 := hdV
    rw [hdV2]
    by_cases hcol : spec_DXYN_collision cfg c (spec_DXYN_startX cfg c X)
        (spec_DXYN_startY cfg c Y) N
    · rw [if_pos hcol, if_pos hcol, List.set_set]
    · rw [if_neg hcol, if_neg hcol]
  · intro idx
    have hdD2 : d.display.getD idx false =
        xor (c.display.getD idx false)
          (decide (spec_DXYN_flips cfg c (spec_DXYN_startX cfg c X)
            (spec_DXYN_startY cfg c Y) N idx)) := hdD idx
    exact hdD2

/-- Concrete instance of the C1 theorem: a 1-row draw on the zeroed
machine with the default configuration. -/
theorem C1_dxyn_draw_witness :
    1 ≤ 1 ∧
    ∃ d, execDXYN set_config_from_args zeroChip8 0 1 1 = .ok d ∧
      d.V = zeroChip8.V.set 15
        (if spec_DXYN_collision set_config_from_args zeroChip8
            (spec_DXYN_startX set_config_from_args zeroChip8 0)
            (spec_DXYN_startY set_config_from_args zeroChip8 1) 1 then 1 else 0) ∧
      (∀ idx, d.display.getD idx false =
        xor (zeroChip8.display.getD idx false)
          (decide (spec_DXYN_flips set_config_from_args zeroChip8
            (spec_DXYN_startX set_config_from_args zeroChip8 0)
            (spec_DXYN_startY set_config_from_args zeroChip8 1) 1 idx))) ∧
      d.memory = zeroChip8.memory ∧ d.pc = zeroChip8.pc ∧ d.I = zeroChip8.I ∧
      d.display.length = zeroChip8.display.length :=
  ⟨by decide,
   C1_dxyn_draw set_config_from_args zeroChip8 0 1 1
     (by norm_num [set_config_from_args])
     (by norm_num [set_config_from_args])
     (by decide)
     (by simp only [zeroChip8, set_config_from_args, List.length_replicate])
     (by
       have hv : zeroChip8.V.getD 1 0 = 0 := by decide
       simp only [spec_DXYN_startY, hv]
       simp only [set_config_from_args, zeroChip8, List.length_replicate]
       omega)⟩

end Chip8Emu
